import Mathlib

/-!
Verification of the folder service in
`pkg/services/folder/folderimpl/folder.go`.

The service composes two persistence backends — a legacy flat dashboard
table and a nested folder table — behind one API.  The service code
itself (Get, GetChildren, GetParents, Create, Update, Move, Delete and
their helpers) is embedded here function by function.  The two store
backends, the guardian / access-control evaluator and the small `util`
UID helpers are collaborators whose implementations are not part of the
source file; they are modelled from the specification (each such
definition carries a doc comment starting with `Modelled from the
spec:`).  Machine integers are modelled as `Int`/`Nat`; Go `(value,
error)` returns are modelled with `Except` (and, for `Create`, which
returns both a value and an error at once, with an explicit pair).
Recursive store traversals take an explicit fuel argument; the service
entry points instantiate the fuel with a bound derived from the store
size, which suffices on the well-formed states quantified over by the
theorems.
-/

set_option linter.unusedVariables false

namespace FolderSvc

/-- A signed-in principal.  The identity-namespace resolution of the
source (user / service-account namespaces yield a numeric id, any other
namespace yields 0) is collapsed into a flag plus the numeric id. -/
structure SUser where
  namespaceIsUser : Bool
  idNum : Int
deriving DecidableEq, Repr

/-- A row of the nested folder table: keyed by org + UID, carrying an
explicit parent-UID pointer, with its own sequential numeric id
(distinct from the legacy id). -/
structure NFolder where
  id : Nat
  uid : String
  orgID : Int
  parentUID : String
  title : String
  description : String
deriving DecidableEq, Repr

/-- A row of the legacy flat dashboard table (folders are rows with
`isFolder = true`), carrying the sequential numeric id and the
optimistic-lock version. -/
structure Dashboard where
  id : Nat
  uid : String
  orgID : Int
  title : String
  folderID : Nat
  folderUID : String
  isFolder : Bool
  version : Nat
  createdBy : Int
  updatedBy : Int
deriving DecidableEq, Repr

/-- The domain folder entity returned by the service. -/
structure Folder where
  id : Nat
  uid : String
  orgID : Int
  title : String
  description : String
  parentUID : String
  version : Nat
deriving DecidableEq, Repr

/-- The error taxonomy of the service: the dashboard-store vocabulary
(`dash*`), the folder vocabulary it is translated into, and the request
errors. -/
inductive Err where
  | badRequest (msg : String)
  | folderAccessDenied
  | folderNotFound
  | maxDepthReached
  | circularReference
  | internalErr (msg : String)
  | folderTitleEmpty
  | folderInvalidUID
  | folderSameNameExists
  | folderWithSameUIDExists
  | folderVersionMismatch
  | dashTitleEmpty
  | dashUpdateAccessDenied
  | dashSameNameInFolderExists
  | dashWithSameUIDExists
  | dashVersionMismatch
  | dashNotFound
  | dashFolderCannotHaveParent
  | dashFolderNameExists
  | dashInvalidUid
  | dashUidTooLong
  | fuelExhausted
deriving DecidableEq, Repr

/-- The two persistence backends. -/
structure State where
  legacy : List Dashboard
  nested : List NFolder
deriving DecidableEq, Repr

/-- Modelled from the spec: the Access Evaluator / guardian, "given a
principal and a required capability on a scoped resource, returns
allow/deny".  Capabilities are keyed the way the source keys them:
view/save/delete by folder UID, legacy dashboard creation by the parent
legacy folder id, and the two access-control evaluations used by
Create/Move (folders:write scoped by parent UID, folders:create). -/
structure Perms where
  canView : String → Bool
  canSave : String → Bool
  canDelete : String → Bool
  canCreateLegacy : Nat → Bool
  acFoldersWrite : String → Bool
  acFoldersCreate : Bool

/-- A capability-registry handler: knows how to count and delete the
entries of one resource kind inside a folder.  The handlers act on
resources outside the two folder stores, so their effect on `State` is
nil; only their success or failure is modelled. -/
structure RegistryHandler where
  kind : String
  deleteInFolder : Int → String → Except Err Unit

/-- The service configuration: the nested-folders feature flag, the
access evaluator and the capability registry. -/
structure Svc where
  nestedEnabled : Bool
  perms : Perms
  registry : List RegistryHandler

def MaxNestedFolderDepth : Nat := 8

def GeneralFolderUID : String := "general"

def RootFolderName : String := "General"

/-- The implicit root pseudo-folder (`folder.GeneralFolder`). -/
def GeneralFolder : Folder :=
  { id := 0, uid := "", orgID := 0, title := "General", description := ""
  , parentUID := "", version := 0 }

/-- `Folder.IsGeneral`: the folder equals the general folder in id and
title. -/
def isGeneral (f : Folder) : Bool :=
  f.id == 0 && f.title == RootFolderName

/-- Modelled from the spec: the legacy flat store materialises a folder
row as a domain folder; the legacy row carries no description and the
flat view carries no parent. -/
def toFolder (d : Dashboard) : Folder :=
  { id := d.id, uid := d.uid, orgID := d.orgID, title := d.title
  , description := "", parentUID := "", version := d.version }

/-- `dashboards.FromDashboard`: the folder view of a freshly saved
legacy row. -/
def fromDashboard (d : Dashboard) : Folder := toFolder d

/-- The folder view of a nested-store row.  The nested store carries no
version column, so the view exposes version 0; the numeric id is the
nested-table id. -/
def viewOfN (f : NFolder) : Folder :=
  { id := f.id, uid := f.uid, orgID := f.orgID, title := f.title
  , description := f.description, parentUID := f.parentUID, version := 0 }

/-! ### Legacy flat store (modelled from the spec) -/

/-- Modelled from the spec: `GetFolderByUID` — the legacy folder row of
an org by UID (`is_folder` rows only). -/
def lFindFolderRow (rows : List Dashboard) (org : Int) (uid : String) :
    Option Dashboard :=
  rows.find? (fun d => d.orgID == org && d.uid == uid && d.isFolder)

/-- Modelled from the spec: `GetFolderByID` — the legacy folder row of
an org by numeric id. -/
def lFindFolderRowByID (rows : List Dashboard) (org : Int) (id : Int) :
    Option Dashboard :=
  rows.find? (fun d => d.orgID == org && (d.id : Int) == id && d.isFolder)

/-- Modelled from the spec: `GetFolderByTitle` — the legacy folder row
of an org by title. -/
def lFindFolderRowByTitle (rows : List Dashboard) (org : Int) (title : String) :
    Option Dashboard :=
  rows.find? (fun d => d.orgID == org && d.title == title && d.isFolder)

/-- Modelled from the spec: `dashboardStore.GetDashboard` — any row of
an org by UID (folder or not; the callers check `IsFolder`). -/
def lGetDashboard (rows : List Dashboard) (org : Int) (uid : String) :
    Option Dashboard :=
  rows.find? (fun d => d.orgID == org && d.uid == uid)

/-- Modelled from the spec: the batch lookup `GetFolders(org, uids) →
map[uid]row` of the legacy store, as a lookup function. -/
def lGetFoldersLookup (rows : List Dashboard) (org : Int)
    (uids : List String) : String → Option Dashboard :=
  fun u => if uids.contains u then lFindFolderRow rows org u else none

/-- Modelled from the spec: `DeleteDashboard` removes the rows of an org
with the given numeric id. -/
def deleteDashboardRows (rows : List Dashboard) (org : Int) (id : Nat) :
    List Dashboard :=
  rows.filter (fun d => !(d.orgID == org && d.id == id))

/-- The largest numeric id present in the legacy table. -/
def lMaxID (rows : List Dashboard) : Nat :=
  rows.foldl (fun acc d => max acc d.id) 0

/-- Modelled from the spec: when a save carries no UID the dashboard
store generates a new one. -/
def genUID (rows : List Dashboard) : String :=
  "u" ++ toString (lMaxID rows + 1)

/-- Modelled from the spec: `SaveDashboard` — an existing row (matched
by org + UID) is replaced, keeping its id and incrementing its version;
otherwise a new row is inserted with a fresh sequential id and version
1, generating a UID when none was given. -/
def saveDashboard (rows : List Dashboard) (dash : Dashboard) :
    Dashboard × List Dashboard :=
  let uid := if dash.uid = "" then genUID rows else dash.uid
  match rows.find? (fun d => d.orgID == dash.orgID && d.uid == uid) with
  | some old =>
    let saved := { dash with uid := uid, id := old.id, version := old.version + 1 }
    (saved, rows.map (fun d =>
      if d.orgID == dash.orgID && d.uid == uid then saved else d))
  | none =>
    let saved := { dash with uid := uid, id := lMaxID rows + 1, version := 1 }
    (saved, rows ++ [saved])

/-! ### Nested tree store (modelled from the spec) -/

/-- Modelled from the spec: the nested store row of an org by UID. -/
def nGet (ns : List NFolder) (org : Int) (uid : String) : Option NFolder :=
  ns.find? (fun f => f.orgID == org && f.uid == uid)

/-- Modelled from the spec: `GetChildren` — the rows of an org whose
parent pointer is the given UID (the empty UID lists the roots). -/
def nGetChildren (ns : List NFolder) (org : Int) (uid : String) :
    List NFolder :=
  ns.filter (fun f => f.orgID == org && f.parentUID == uid)

/-- The chain of ancestors reached from a parent pointer, ordered from
the root down to the immediate parent.  The fuel bounds the walk on
ill-formed (cyclic) data. -/
def ancestorChain (ns : List NFolder) (org : Int) :
    Nat → String → List NFolder
  | 0, _ => []
  | fuel + 1, puid =>
    if puid = "" then []
    else
      match nGet ns org puid with
      | none => []
      | some p => ancestorChain ns org fuel p.parentUID ++ [p]

/-- Modelled from the spec: `GetParents` — the ancestor chain of a
folder, not including the folder itself; an unknown or empty UID has no
ancestors. -/
def nGetParents (ns : List NFolder) (org : Int) (fuel : Nat)
    (uid : String) : List NFolder :=
  match nGet ns org uid with
  | none => []
  | some f => ancestorChain ns org fuel f.parentUID

/-- Modelled from the spec: `GetHeight` — the height of the subtree
rooted at the folder (a leaf has height 0). -/
def nGetHeight (ns : List NFolder) (org : Int) :
    Nat → String → Nat
  | 0, _ => 0
  | fuel + 1, uid =>
    (nGetChildren ns org uid).foldl
      (fun acc f => max acc (nGetHeight ns org fuel f.uid + 1)) 0

/-- An update command as the service passes it to the stores. -/
structure UpdateFolderCommand where
  uid : String
  orgID : Int
  newTitle : Option String
  newDescription : Option String
  newParentUID : Option String
  version : Nat
  overwrite : Bool
  signedInUser : Option SUser
deriving Repr

/-- Modelled from the spec: the nested store `Update` — rewrites the
title, description and parent pointer of the row when the command
carries new values, and fails with not-found when the row is absent. -/
def nUpdate (ns : List NFolder) (cmd : UpdateFolderCommand) :
    Except Err (NFolder × List NFolder) :=
  match nGet ns cmd.orgID cmd.uid with
  | none => .error .folderNotFound
  | some f =>
    let f' : NFolder :=
      { f with
        title := match cmd.newTitle with | some t => t | none => f.title
        description :=
          match cmd.newDescription with | some d => d | none => f.description
        parentUID :=
          match cmd.newParentUID with | some p => p | none => f.parentUID }
    .ok (f', ns.map (fun g =>
      if g.orgID == cmd.orgID && g.uid == cmd.uid then f' else g))

/-- The largest nested-table id. -/
def nMaxID (ns : List NFolder) : Nat :=
  ns.foldl (fun acc f => max acc f.id) 0

/-- A create command. -/
structure CreateFolderCommand where
  uid : String
  orgID : Int
  title : String
  description : String
  parentUID : String
  signedInUser : Option SUser
deriving Repr

/-- Modelled from the spec: the nested store `Create` — inserts a row
keyed by org + UID with the given parent pointer; the UID is unique
within an org, so a duplicate insert fails. -/
def storeCreate (ns : List NFolder) (cmd : CreateFolderCommand) :
    Except Err (NFolder × List NFolder) :=
  if ns.any (fun f => f.orgID == cmd.orgID && f.uid == cmd.uid) then
    .error .folderWithSameUIDExists
  else
    let nf : NFolder :=
      { id := nMaxID ns + 1, uid := cmd.uid, orgID := cmd.orgID
      , parentUID := cmd.parentUID, title := cmd.title
      , description := cmd.description }
    .ok (nf, ns ++ [nf])

/-- Modelled from the spec: the nested store `Delete` — removes the row
of an org with the given UID. -/
def nDeleteRow (ns : List NFolder) (org : Int) (uid : String) :
    List NFolder :=
  ns.filter (fun f => !(f.orgID == org && f.uid == uid))

/-! ### Service: Get -/

/-- A get query: org id plus at most one of UID, numeric id, title. -/
structure GetFolderQuery where
  uid : Option String
  id : Option Int
  title : Option String
  orgID : Int
  signedInUser : Option SUser
deriving Repr

/-- `getFolderByID` (folder.go:337): id 0 yields the implicit general
folder, anything else is a legacy lookup by id. -/
def getFolderByID (st : State) (id : Int) (org : Int) : Except Err Folder :=
  if id = 0 then .ok GeneralFolder
  else
    match lFindFolderRowByID st.legacy org id with
    | some d => .ok (toFolder d)
    | none => .error .folderNotFound

/-- `getFolderByUID` (folder.go:345). -/
def getFolderByUID (st : State) (org : Int) (uid : String) :
    Except Err Folder :=
  match lFindFolderRow st.legacy org uid with
  | some d => .ok (toFolder d)
  | none => .error .folderNotFound

/-- `getFolderByTitle` (folder.go:349). -/
def getFolderByTitle (st : State) (org : Int) (title : String) :
    Except Err Folder :=
  match lFindFolderRowByTitle st.legacy org title with
  | some d => .ok (toFolder d)
  | none => .error .folderNotFound

/-- The selector switch of `Get` (folder.go:120-138): a non-empty UID
wins, then a numeric id, then a title; no selector is a bad request. -/
def selectDashFolder (st : State) (q : GetFolderQuery) : Except Err Folder :=
  if q.uid.isSome && !(q.uid.getD "" == "") then
    getFolderByUID st q.orgID (q.uid.getD "")
  else if q.id.isSome then
    getFolderByID st (q.id.getD 0) q.orgID
  else if q.title.isSome then
    getFolderByTitle st q.orgID (q.title.getD "")
  else
    .error (.badRequest "either on of UID, ID, Title fields must be present")

/-- Modelled from the spec: the nested store `Get` on a query — by UID
when present, else by the nested numeric id, else by title. -/
def storeGet (ns : List NFolder) (q : GetFolderQuery) : Except Err Folder :=
  match q.uid with
  | some u =>
    match nGet ns q.orgID u with
    | some nf => .ok (viewOfN nf)
    | none => .error .folderNotFound
  | none =>
    match q.id with
    | some i =>
      match ns.find? (fun f => f.orgID == q.orgID && (f.id : Int) == i) with
      | some nf => .ok (viewOfN nf)
      | none => .error .folderNotFound
    | none =>
      match q.title with
      | some t =>
        match ns.find? (fun f => f.orgID == q.orgID && f.title == t) with
        | some nf => .ok (viewOfN nf)
        | none => .error .folderNotFound
      | none => .error (.badRequest "no selector")

/-- `Service.Get` (folder.go:113-178): resolve the legacy folder by the
one selector, return the general folder at once, check the view
capability, and — in nested mode — fetch the nested row (by UID when the
selector was the numeric id) and overwrite its numeric id and version
with the legacy values. -/
def Service.Get (s : Svc) (st : State) (q : GetFolderQuery) :
    Except Err Folder :=
  if q.signedInUser.isNone then .error (.badRequest "missing signed in user")
  else
    match selectDashFolder st q with
    | .error e => .error e
    | .ok dashFolder =>
      if isGeneral dashFolder then .ok dashFolder
      else if !(s.perms.canView dashFolder.uid) then .error .folderAccessDenied
      else if !s.nestedEnabled then .ok dashFolder
      else
        let q' :=
          if q.id.isSome then { q with id := none, uid := some dashFolder.uid }
          else q
        match storeGet st.nested q' with
        | .error e => .error e
        | .ok f => .ok { f with id := dashFolder.id, version := dashFolder.version }

/-! ### Service: GetChildren -/

/-- A children query: org id plus the parent UID (empty = root). -/
structure GetChildrenQuery where
  uid : String
  orgID : Int
  signedInUser : Option SUser
deriving Repr

/-- The loop of `GetChildren` (folder.go:217-246): a child with no
legacy row is skipped; otherwise the legacy numeric id is attached; for
a non-root listing the child is kept as is (inherited access), for a
root listing the child undergoes its own view check. -/
def childrenLoop (s : Svc) (quid : String)
    (lookupF : String → Option Dashboard) :
    List NFolder → List Folder
  | [] => []
  | f :: fs =>
    match lookupF f.uid with
    | none => childrenLoop s quid lookupF fs
    | some dashFolder =>
      let f' := { viewOfN f with id := dashFolder.id }
      if quid ≠ "" then f' :: childrenLoop s quid lookupF fs
      else if s.perms.canView dashFolder.uid then
        f' :: childrenLoop s quid lookupF fs
      else childrenLoop s quid lookupF fs

/-- `Service.GetChildren` (folder.go:180-249). -/
def Service.GetChildren (s : Svc) (st : State) (q : GetChildrenQuery) :
    Except Err (List Folder) :=
  if q.signedInUser.isNone then .error (.badRequest "missing signed in user")
  else if q.uid ≠ "" && !(s.perms.canView q.uid) then .error .folderAccessDenied
  else
    let children := nGetChildren st.nested q.orgID q.uid
    let childrenUIDs := children.map (·.uid)
    let lookupF := lGetFoldersLookup st.legacy q.orgID childrenUIDs
    .ok (childrenLoop s q.uid lookupF children)

/-! ### Service: GetParents -/

/-- A parents query. -/
structure GetParentsQuery where
  uid : String
  orgID : Int
deriving Repr

/-- `Service.GetParents` (folder.go:330-335): nothing unless the
nested-folders feature is enabled. -/
def Service.GetParents (s : Svc) (st : State) (q : GetParentsQuery) :
    Except Err (List Folder) :=
  if !s.nestedEnabled then .ok []
  else .ok ((nGetParents st.nested q.orgID (st.nested.length + 1) q.uid).map viewOfN)

/-! ### Save-command construction (shared by Create / Update / Move) -/

/-- Modelled from the spec: `strings.TrimSpace` — strips leading and
trailing whitespace (a kernel-computable rendering of trimming). -/
def trimStr (s : String) : String :=
  ⟨((s.data.dropWhile Char.isWhitespace).reverse.dropWhile Char.isWhitespace).reverse⟩

/-- Modelled from the spec: ASCII lowercasing, used for the
case-insensitive title comparison. -/
def lowerStr (s : String) : String :=
  ⟨s.data.map Char.toLower⟩

/-- `toFolderError` (folder.go:983-1009): the dashboard-store error
vocabulary translated into the folder one. -/
def toFolderError : Err → Err
  | .dashTitleEmpty => .folderTitleEmpty
  | .dashUpdateAccessDenied => .folderAccessDenied
  | .dashSameNameInFolderExists => .folderSameNameExists
  | .dashWithSameUIDExists => .folderWithSameUIDExists
  | .dashVersionMismatch => .folderVersionMismatch
  | .dashNotFound => .folderNotFound
  | e => e

/-- Modelled from the spec: `strings.EqualFold` on the ASCII titles in
play — case-insensitive equality. -/
def eqFold (a b : String) : Bool :=
  lowerStr a == lowerStr b

/-- Modelled from the spec: `util.IsValidShortUID` — the UID is a short
token of word characters and dashes (the empty UID is valid: the store
generates one). -/
def isValidShortUID (s : String) : Bool :=
  s.data.all (fun c => c.isAlphanum || c == '-' || c == '_')

/-- Modelled from the spec: `util.IsShortUIDTooLong` — the bounded
length of a UID token. -/
def isShortUIDTooLong (s : String) : Bool :=
  s.data.length > 40

/-- Modelled from the spec: `ValidateDashboardBeforeSave` — no second
row with the same UID, no duplicate title among sibling rows of the
same kind, and the optimistic version check unless overwriting. -/
def validateDashboardBeforeSave (rows : List Dashboard) (dash : Dashboard)
    (overwrite : Bool) : Except Err Unit :=
  if dash.uid ≠ "" &&
      rows.any (fun d => d.orgID == dash.orgID && d.uid == dash.uid && d.id != dash.id) then
    .error .dashWithSameUIDExists
  else if rows.any (fun d => d.orgID == dash.orgID && d.isFolder == dash.isFolder &&
      d.folderUID == dash.folderUID && eqFold d.title dash.title && d.uid != dash.uid) then
    .error .dashSameNameInFolderExists
  else if !overwrite && dash.id ≠ 0 &&
      (match rows.find? (fun d => d.orgID == dash.orgID && d.id == dash.id) with
       | some ex => ex.version ≠ dash.version
       | none => False) then
    .error .dashVersionMismatch
  else .ok ()

/-- `buildSaveDashboardCommand` (folder.go:847-927): trims title and
UID, rejects the empty title, a parented folder, the reserved root
title, an invalid or overlong UID, runs the store validation, and checks
the create capability (new row) or the save capability (existing row).
The produced save command is represented by the prepared row itself. -/
def buildSaveDashboardCommand (p : Perms) (rows : List Dashboard)
    (dash0 : Dashboard) (overwrite : Bool) : Except Err Dashboard :=
  let dash := { dash0 with title := trimStr dash0.title, uid := trimStr dash0.uid }
  if dash.title = "" then .error .dashTitleEmpty
  else if dash.isFolder && dash.folderID > 0 then .error .dashFolderCannotHaveParent
  else if dash.isFolder && eqFold dash.title RootFolderName then .error .dashFolderNameExists
  else if !isValidShortUID dash.uid then .error .dashInvalidUid
  else if isShortUIDTooLong dash.uid then .error .dashUidTooLong
  else
    match validateDashboardBeforeSave rows dash overwrite with
    | .error e => .error e
    | .ok _ =>
      if dash.id = 0 then
        if !(p.canCreateLegacy dash.folderID) then .error .dashUpdateAccessDenied
        else .ok dash
      else
        if !(p.canSave dash.uid) then .error .dashUpdateAccessDenied
        else .ok dash

/-! ### Service: Create -/

/-- `dashboards.NewDashboardFolder`: a fresh legacy folder row. -/
def NewDashboardFolder (title : String) : Dashboard :=
  { id := 0, uid := "", orgID := 0, title := title, folderID := 0
  , folderUID := "", isFolder := true, version := 0
  , createdBy := 0, updatedBy := 0 }

/-- The numeric id the source resolves from the identity namespace:
0 outside user / service-account namespaces. -/
def rawUserID (u : SUser) : Int :=
  if u.namespaceIsUser then u.idNum else 0

/-- The legacy folder row Create assembles before saving
(folder.go:360-402): org, parent UID (only in nested mode), trimmed UID,
creator and updater (sentinel -1 when no numeric identity). -/
def createDashFolder (s : Svc) (cmd : CreateFolderCommand) (u : SUser) :
    Dashboard :=
  let d := NewDashboardFolder cmd.title
  let d := { d with orgID := cmd.orgID }
  let d :=
    if s.nestedEnabled && cmd.parentUID ≠ "" then { d with folderUID := cmd.parentUID }
    else d
  let d := { d with uid := trimStr cmd.uid }
  let uidN := if rawUserID u = 0 then -1 else rawUserID u
  { d with createdBy := uidN, updatedBy := uidN }

/-- `validateParent` (folder.go:958-981): depth bound on the ancestors
of the destination parent, then the self and ancestor cycle checks. -/
def validateParent (ns : List NFolder) (org : Int) (parentUID : String)
    (UID : String) : Except Err Unit :=
  let ancestors := nGetParents ns org (ns.length + 1) parentUID
  if ancestors.length = MaxNestedFolderDepth then .error .maxDepthReached
  else if parentUID = UID then .error .circularReference
  else if ancestors.any (fun a => a.uid == UID) then .error .circularReference
  else .ok ()

/-- `nestedFolderCreate` (folder.go:949-956). -/
def nestedFolderCreate (ns : List NFolder) (cmd : CreateFolderCommand) :
    Except Err (NFolder × List NFolder) :=
  if cmd.parentUID ≠ "" then
    match validateParent ns cmd.orgID cmd.parentUID cmd.uid with
    | .error e => .error e
    | .ok _ => storeCreate ns cmd
  else storeCreate ns cmd

/-- `Service.Create` (folder.go:353-457).  Go returns both a folder and
an error; the result is the pair of options the caller sees.  On a
nested-store failure the freshly saved legacy row is deleted as
compensation and the nested error is returned together with the
best-effort legacy folder; a failure of the compensating delete is only
logged and never replaces that error. -/
def Service.Create (s : Svc) (st : State) (cmd : CreateFolderCommand) :
    (Option Folder × Option Err) × State :=
  match cmd.signedInUser with
  | none => ((none, some (.badRequest "missing signed in user")), st)
  | some u =>
    if s.nestedEnabled && cmd.parentUID ≠ "" && !(s.perms.acFoldersWrite cmd.parentUID) then
      ((none, some .folderAccessDenied), st)
    else if trimStr cmd.uid = GeneralFolderUID then
      ((none, some .folderInvalidUID), st)
    else
      let dashFolder := createDashFolder s cmd u
      match buildSaveDashboardCommand s.perms st.legacy dashFolder false with
      | .error e => ((none, some (toFolderError e)), st)
      | .ok sc =>
        let (dash, legacy1) := saveDashboard st.legacy sc
        match lFindFolderRowByID legacy1 cmd.orgID (dash.id : Int) with
        | none => ((none, some .folderNotFound), { st with legacy := legacy1 })
        | some createdRow =>
          let createdFolder := toFolder createdRow
          let cmd2 : CreateFolderCommand :=
            { uid := dash.uid, orgID := cmd.orgID, title := cmd.title
            , description := cmd.description, parentUID := cmd.parentUID
            , signedInUser := cmd.signedInUser }
          match nestedFolderCreate st.nested cmd2 with
          | .error e =>
            let legacy2 := deleteDashboardRows legacy1 createdFolder.orgID createdFolder.id
            ((some (fromDashboard dash), some e), { legacy := legacy2, nested := st.nested })
          | .ok (nf, ns1) =>
            let f := fromDashboard dash
            let f := if nf.parentUID ≠ "" then { f with parentUID := nf.parentUID } else f
            ((some f, none), { legacy := legacy1, nested := ns1 })

/-! ### Service: Update (and the legacy half shared with Move) -/

/-- `prepareForUpdate` (folder.go:568-587). -/
def prepareForUpdate (d0 : Dashboard) (orgId : Int) (userId : Int)
    (cmd : UpdateFolderCommand) : Dashboard :=
  let d := { d0 with orgID := orgId }
  let title :=
    match cmd.newTitle with
    | some t => if t ≠ "" then t else d.title
    | none => d.title
  let d := { d with title := trimStr title }
  let d := { d with version := cmd.version, isFolder := true }
  let uidN := if userId = 0 then -1 else userId
  { d with updatedBy := uidN }

/-- `legacyUpdate` (folder.go:495-565): loads the legacy row by UID,
applies the new parent UID, rejects non-folders, prepares and saves the
row, and reloads the saved folder.  The title-change event publication
has no effect on the stores and is omitted. -/
def legacyUpdate (s : Svc) (st : State) (cmd : UpdateFolderCommand) :
    Except Err Folder × State :=
  match lGetDashboard st.legacy cmd.orgID cmd.uid with
  | none => (.error (toFolderError .dashNotFound), st)
  | some d0 =>
    let d1 :=
      match cmd.newParentUID with
      | some p => { d0 with folderUID := p }
      | none => d0
    if !d1.isFolder then (.error .folderNotFound, st)
    else
      match cmd.signedInUser with
      | none => (.error (.badRequest "missing signed in user"), st)
      | some u =>
        let d2 := prepareForUpdate d1 cmd.orgID (rawUserID u) cmd
        match buildSaveDashboardCommand s.perms st.legacy d2 cmd.overwrite with
        | .error e => (.error (toFolderError e), st)
        | .ok sc =>
          let (dash, legacy1) := saveDashboard st.legacy sc
          match lFindFolderRowByID legacy1 cmd.orgID (dash.id : Int) with
          | none => (.error .folderNotFound, { st with legacy := legacy1 })
          | some row => (.ok (toFolder row), { st with legacy := legacy1 })

/-- `Service.Update` (folder.go:459-493): saves the legacy row first,
then updates the nested row with only the new title and description; a
nested row that does not exist yet is tolerated (the legacy result is
returned); on success the legacy id and version are propagated. -/
def Service.Update (s : Svc) (st : State) (cmd : UpdateFolderCommand) :
    Except Err Folder × State :=
  match cmd.signedInUser with
  | none => (.error (.badRequest "missing signed in user"), st)
  | some _ =>
    match legacyUpdate s st cmd with
    | (.error e, st1) => (.error e, st1)
    | (.ok dashFolder, st1) =>
      match nUpdate st1.nested
          { uid := cmd.uid, orgID := cmd.orgID, newTitle := cmd.newTitle
          , newDescription := cmd.newDescription, newParentUID := none
          , version := 0, overwrite := false
          , signedInUser := cmd.signedInUser } with
      | .error e =>
        if e = .folderNotFound then (.ok dashFolder, st1) else (.error e, st1)
      | .ok (nf, ns1) =>
        let f := viewOfN nf
        (.ok { f with id := dashFolder.id, version := dashFolder.version }
        , { st1 with nested := ns1 })

/-! ### Service: Move -/

/-- A move command. -/
structure MoveFolderCommand where
  uid : String
  newParentUID : String
  orgID : Int
  signedInUser : Option SUser
deriving Repr

/-- The access evaluation of `Move` (folder.go:675-681): write on the
destination parent, or folder creation when moving to the root. -/
def moveAccess (s : Svc) (cmd : MoveFolderCommand) : Bool :=
  if cmd.newParentUID ≠ "" then s.perms.acFoldersWrite cmd.newParentUID
  else s.perms.acFoldersCreate

/-- `Service.Move` (folder.go:669-745): after the access evaluation it
computes the height of the moving subtree and the ancestors of the
destination, rejects a move past the depth bound, rejects a destination
whose ancestor chain contains the moving folder, and then updates both
stores inside one transaction (a failure of either store aborts the
whole move). -/
def Service.Move (s : Svc) (st : State) (cmd : MoveFolderCommand) :
    Except Err Folder × State :=
  match cmd.signedInUser with
  | none => (.error (.badRequest "missing signed in user"), st)
  | some _ =>
    if !(moveAccess s cmd) then (.error .folderAccessDenied, st)
    else
      let fuel := st.nested.length + 1
      let folderHeight := nGetHeight st.nested cmd.orgID fuel cmd.uid
      let parents := nGetParents st.nested cmd.orgID fuel cmd.newParentUID
      if folderHeight + parents.length + 2 > MaxNestedFolderDepth then
        (.error .maxDepthReached, st)
      else if parents.any (fun p => p.uid == cmd.uid) then
        (.error .circularReference, st)
      else
        let newParentUID := cmd.newParentUID
        match nUpdate st.nested
            { uid := cmd.uid, orgID := cmd.orgID, newTitle := none
            , newDescription := none, newParentUID := some newParentUID
            , version := 0, overwrite := false
            , signedInUser := cmd.signedInUser } with
        | .error _ => (.error (.internalErr "failed to move folder"), st)
        | .ok (nf, ns1) =>
          match legacyUpdate s { st with nested := ns1 }
              { uid := cmd.uid, orgID := cmd.orgID, newTitle := none
              , newDescription := none, newParentUID := some newParentUID
              , version := 0, overwrite := true
              , signedInUser := cmd.signedInUser } with
          | (.error _, _) => (.error (.internalErr "failed to move legacy folder"), st)
          | (.ok _, st2) => (.ok (viewOfN nf), st2)

/-! ### Service: Delete -/

/-- A delete command. -/
structure DeleteFolderCommand where
  uid : String
  orgID : Int
  forceDeleteRules : Bool
  signedInUser : Option SUser
deriving Repr

/-- `deleteChildrenInFolder` (folder.go:651-658): every registered
resource-kind handler deletes its entries in the folder; the first
failure aborts. -/
def deleteChildrenInFolder (rs : List RegistryHandler) (org : Int)
    (uid : String) : Except Err Unit :=
  match rs with
  | [] => .ok ()
  | r :: rest =>
    match r.deleteInFolder org uid with
    | .error e => .error e
    | .ok _ => deleteChildrenInFolder rest org uid

mutual

/-- `nestedFolderDelete` (folder.go:750-788): loads the folder through
`Get`, recursively deletes every child subtree from the nested store,
removes the folder row itself, and returns the UIDs of all descendants.
The fuel bounds the recursion on ill-formed data. -/
def nestedFolderDelete : Nat → Svc → State → DeleteFolderCommand →
    Except Err (List String) × State
  | 0, _, st, _ => (.error .fuelExhausted, st)
  | fuel + 1, s, st, cmd =>
    if cmd.signedInUser.isNone then
      (.error (.badRequest "missing signed in user"), st)
    else
      match Service.Get s st
          { uid := some cmd.uid, id := none, title := none
          , orgID := cmd.orgID, signedInUser := cmd.signedInUser } with
      | .error e => (.error e, st)
      | .ok _ =>
        match nfdChildren fuel s st cmd (nGetChildren st.nested cmd.orgID cmd.uid) with
        | (.error e, st') => (.error e, st')
        | (.ok acc, st') =>
          (.ok acc, { st' with nested := nDeleteRow st'.nested cmd.orgID cmd.uid })
termination_by fuel s st cmd => (fuel, 0)

/-- The loop over the children inside `nestedFolderDelete`
(folder.go:770-779). -/
def nfdChildren : Nat → Svc → State → DeleteFolderCommand →
    List NFolder → Except Err (List String) × State
  | _, _, st, _, [] => (.ok [], st)
  | fuel, s, st, cmd, f :: fs =>
    match nestedFolderDelete fuel s st
        { uid := f.uid, orgID := f.orgID
        , forceDeleteRules := cmd.forceDeleteRules
        , signedInUser := cmd.signedInUser } with
    | (.error e, st') => (.error e, st')
    | (.ok subs, st') =>
      match nfdChildren fuel s st' cmd fs with
      | (.error e, st'') => (.error e, st'')
      | (.ok rest, st'') => (.ok (f.uid :: (subs ++ rest)), st'')
termination_by fuel s st cmd l => (fuel, l.length + 1)

end

/-- The loop of `Delete` over the collected UIDs (folder.go:628-644):
look each UID up in the batch map — a missing row ends the loop with the
current (nil) error —, optionally fan out to the registry handlers, and
delete the legacy row by numeric id. -/
def legacyDeleteLoop (s : Svc) (cmd : DeleteFolderCommand)
    (lookupF : String → Option Dashboard) :
    List String → State → Except Err Unit × State
  | [], st => (.ok (), st)
  | u :: rest, st =>
    match lookupF u with
    | none => (.ok (), st)
    | some dashFolder =>
      match
        (if cmd.forceDeleteRules then
          deleteChildrenInFolder s.registry dashFolder.orgID dashFolder.uid
         else .ok ()) with
      | .error e => (.error e, st)
      | .ok _ =>
        legacyDeleteLoop s cmd lookupF rest
          { st with legacy := deleteDashboardRows st.legacy cmd.orgID dashFolder.id }

/-- `Service.Delete` (folder.go:589-649): validates the command, checks
the delete capability, and inside one transaction deletes the nested
subtree, then every collected legacy row; an error aborts the whole
transaction, reverting both stores. -/
def Service.Delete (s : Svc) (st : State) (cmd : DeleteFolderCommand) :
    Except Err Unit × State :=
  if cmd.signedInUser.isNone then (.error (.badRequest "missing signed in user"), st)
  else if cmd.uid = "" then (.error (.badRequest "missing UID"), st)
  else if cmd.orgID < 1 then (.error (.badRequest "invalid orgID"), st)
  else if !(s.perms.canDelete cmd.uid) then (.error .folderAccessDenied, st)
  else
    match nestedFolderDelete (st.nested.length + 1) s st cmd with
    | (.error e, _) => (.error e, st)
    | (.ok subfolders, st1) =>
      let result := cmd.uid :: subfolders
      let lookupF := lGetFoldersLookup st1.legacy cmd.orgID result
      match legacyDeleteLoop s cmd lookupF result st1 with
      | (.error e, _) => (.error e, st)
      | (.ok _, st2) => (.ok (), st2)

/-! ### Concrete fixtures used by witnesses and counterexamples -/

/-- A permission assignment allowing everything. -/
def permsAll : Perms :=
  { canView := fun _ => true, canSave := fun _ => true
  , canDelete := fun _ => true, canCreateLegacy := fun _ => true
  , acFoldersWrite := fun _ => true, acFoldersCreate := true }

/-- The service with nested folders enabled and all permissions. -/
def svcN : Svc := { nestedEnabled := true, perms := permsAll, registry := [] }

/-- The service with nested folders disabled. -/
def svcOff : Svc := { nestedEnabled := false, perms := permsAll, registry := [] }

/-- A signed-in user with numeric identity 7. -/
def uA : SUser := { namespaceIsUser := true, idNum := 7 }

/-- Legacy row of folder a. -/
def rowA : Dashboard :=
  { id := 1, uid := "a", orgID := 1, title := "A", folderID := 0
  , folderUID := "", isFolder := true, version := 3, createdBy := 7, updatedBy := 7 }

/-- Legacy row of folder b (a child of a). -/
def rowB : Dashboard :=
  { id := 2, uid := "b", orgID := 1, title := "B", folderID := 0
  , folderUID := "a", isFolder := true, version := 1, createdBy := 7, updatedBy := 7 }

/-- Nested row of folder a (a root folder). -/
def nA : NFolder :=
  { id := 11, uid := "a", orgID := 1, parentUID := "", title := "A", description := "da" }

/-- Nested row of folder b, child of a. -/
def nB : NFolder :=
  { id := 12, uid := "b", orgID := 1, parentUID := "a", title := "B", description := "db" }

/-- A two-folder state: a with child b, present in both stores. -/
def st0 : State := { legacy := [rowA, rowB], nested := [nA, nB] }

/-- A chain of eight nested root-to-leaf folders p1 … p8 plus an
independent leaf m, used to exercise the depth bound. -/
def stChain : State :=
  { legacy :=
      (List.range 8).map (fun k =>
        { id := k + 1, uid := "p" ++ toString (k + 1), orgID := 1
        , title := "P" ++ toString (k + 1), folderID := 0
        , folderUID := if k = 0 then "" else "p" ++ toString k
        , isFolder := true, version := 1, createdBy := 7, updatedBy := 7 })
      ++ [{ id := 9, uid := "m", orgID := 1, title := "M", folderID := 0
          , folderUID := "", isFolder := true, version := 1
          , createdBy := 7, updatedBy := 7 }]
  , nested :=
      (List.range 8).map (fun k =>
        { id := k + 1, uid := "p" ++ toString (k + 1), orgID := 1
        , parentUID := if k = 0 then "" else "p" ++ toString k
        , title := "P" ++ toString (k + 1), description := "" })
      ++ [{ id := 9, uid := "m", orgID := 1, parentUID := ""
          , title := "M", description := "" }] }

/-- Nested row of folder c with no legacy counterpart: it will collide
with the nested write of a Create of UID c. -/
def nC4 : NFolder :=
  { id := 21, uid := "c", orgID := 1, parentUID := "", title := "Cold"
  , description := "" }

/-- A state whose nested store already holds UID c while the legacy
store is empty. -/
def stC4 : State := { legacy := [], nested := [nC4] }

/-- Uniqueness of the org + UID key in the nested store (the invariant
"UID is unique within an org"). -/
def nestedKeysUnique (ns : List NFolder) : Prop :=
  ∀ a ∈ ns, ∀ b ∈ ns, a.orgID = b.orgID → a.uid = b.uid → a = b

/-- The update command of the C9 witness: a rename plus a NewParentUID
of b. -/
def c9cmd : UpdateFolderCommand :=
  { uid := "a", orgID := 1, newTitle := some "A2", newDescription := none
  , newParentUID := some "b", version := 3, overwrite := false
  , signedInUser := some uA }

/-- The permission assignment of the C7 counterexample: folder c is not
viewable, everything else is allowed. -/
def permsNoC : Perms :=
  { canView := fun u => !(u == "c"), canSave := fun _ => true
  , canDelete := fun _ => true, canCreateLegacy := fun _ => true
  , acFoldersWrite := fun _ => true, acFoldersCreate := true }

/-- The service of the C7 counterexample. -/
def svcC7 : Svc := { nestedEnabled := true, perms := permsNoC, registry := [] }

/-- Nested row of the root folder c. -/
def nC7 : NFolder :=
  { id := 31, uid := "c", orgID := 1, parentUID := "", title := "C"
  , description := "" }

/-- Legacy row of folder c. -/
def rowC7 : Dashboard :=
  { id := 3, uid := "c", orgID := 1, title := "C", folderID := 0
  , folderUID := "", isFolder := true, version := 1
  , createdBy := 7, updatedBy := 7 }

/-- The one-folder state of the C7 counterexample: c is present in both
stores. -/
def stC7 : State := { legacy := [rowC7], nested := [nC7] }

/-! ### Subtree shapes for the Delete cascade (C3) -/

mutual
/-- The shape of a folder subtree: a root UID and the list of child
subtrees, in store order. -/
inductive UTree where
  | node : String → UForest → UTree
deriving DecidableEq, Repr
/-- A list of subtrees. -/
inductive UForest where
  | fnil : UForest
  | fcons : UTree → UForest → UForest
deriving DecidableEq, Repr
end

/-- The UID at the root of a subtree. -/
def UTree.rootUID : UTree → String
  | .node u _ => u

/-- The child forest of a subtree. -/
def UTree.childrenF : UTree → UForest
  | .node _ cs => cs

mutual
/-- All UIDs of a subtree, root first, in traversal order. -/
def flattenT : UTree → List String
  | .node u cs => u :: flattenF cs
/-- All UIDs of a forest in traversal order. -/
def flattenF : UForest → List String
  | .fnil => []
  | .fcons t ts => flattenT t ++ flattenF ts
end

/-- The root UIDs of a forest, in order. -/
def rootsF : UForest → List String
  | .fnil => []
  | .fcons t ts => t.rootUID :: rootsF ts

mutual
/-- The height of a subtree (a leaf has height 1). -/
def heightT : UTree → Nat
  | .node _ cs => heightF cs + 1
/-- The height of a forest (the empty forest has height 0). -/
def heightF : UForest → Nat
  | .fnil => 0
  | .fcons t ts => max (heightT t) (heightF ts)
end

mutual
/-- The tree describes the nested store exactly: at every node, the
children listed by the store are exactly the recorded child roots, in
order. -/
def repT (ns : List NFolder) (org : Int) : UTree → Bool
  | .node u cs =>
    ((nGetChildren ns org u).map (·.uid) == rootsF cs) && repF ns org cs
/-- `repT` for every tree of the forest. -/
def repF (ns : List NFolder) (org : Int) : UForest → Bool
  | .fnil => true
  | .fcons t ts => repT ns org t && repF ns org ts
end

/-- The per-folder side conditions of the Delete cascade: a non-empty
UID, a nested row, a legacy folder row with a non-zero id (so it is not
the general folder) and the view capability. -/
def nodeOK (s : Svc) (st : State) (org : Int) (u : String) : Bool :=
  (u ≠ "") && (nGet st.nested org u).isSome &&
  (match lFindFolderRow st.legacy org u with
   | some d => (d.id ≠ 0) && s.perms.canView u
   | none => false)

/-- Removal of a set of UIDs (of one org) from the nested store. -/
def removeNestedByUIDs (ns : List NFolder) (org : Int) (uids : List String) :
    List NFolder :=
  ns.filter (fun f => !(f.orgID == org && uids.contains f.uid))

/-- Removal of a set of UIDs (of one org) from the legacy store. -/
def removeLegacyByUIDs (rows : List Dashboard) (org : Int)
    (uids : List String) : List Dashboard :=
  rows.filter (fun d => !(d.orgID == org && uids.contains d.uid))

/-- Uniqueness of both legacy keys (org + UID and org + id) within an
org: the invariant of the sequential id and of UID uniqueness. -/
def legacyKeysUnique (rows : List Dashboard) (org : Int) : Prop :=
  ∀ d ∈ rows, ∀ e ∈ rows, d.orgID = org → e.orgID = org →
    (d.uid = e.uid ∨ d.id = e.id) → d = e

/-- The subtree shape of the C3 witness: folder a with the single child
b. -/
def c3T : UTree := .node "a" (.fcons (.node "b" .fnil) .fnil)

/-- The delete command of the C3 witness. -/
def c3cmd : DeleteFolderCommand :=
  { uid := "a", orgID := 1, forceDeleteRules := false
  , signedInUser := some uA }

/-! ### Helper lemmas -/

theorem lFindFolderRow_spec {rows : List Dashboard} {org : Int} {uid : String}
    {d : Dashboard} (h : lFindFolderRow rows org uid = some d) :
    d.orgID = org ∧ d.uid = uid ∧ d.isFolder = true := by
  have h' := List.find?_some h
  simp only [Bool.and_eq_true, beq_iff_eq] at h'
  exact ⟨h'.1.1, h'.1.2, h'.2⟩

theorem getFolderByUID_uid {st : State} {org : Int} {u : String} {f : Folder}
    (h : getFolderByUID st org u = .ok f) : f.uid = u := by
  unfold getFolderByUID at h
  cases hf : lFindFolderRow st.legacy org u with
  | none => rw [hf] at h; exact absurd h (by simp)
  | some d =>
    rw [hf] at h
    have := (lFindFolderRow_spec hf).2.1
    cases h
    simpa [toFolder] using this

theorem createDashFolder_title (s : Svc) (cmd : CreateFolderCommand)
    (u : SUser) : (createDashFolder s cmd u).title = cmd.title := by
  unfold createDashFolder NewDashboardFolder
  split <;> rfl

/-! ### Theorems for the claims -/

/-- C10: when the nested-folders feature is disabled, GetParents returns
an empty result and no error, for every state of the stores and every
query — including queries naming a folder that does not exist. -/
theorem C10_getparents_disabled (s : Svc) (st : State) (q : GetParentsQuery)
    (hdis : s.nestedEnabled = false) :
    Service.GetParents s st q = .ok [] := by
  simp [Service.GetParents, hdis]

/-- Witness for C10: a query for a missing folder in some other org
still yields the empty, error-free result. -/
theorem C10_getparents_disabled_witness :
    svcOff.nestedEnabled = false ∧
      Service.GetParents svcOff st0 { uid := "missing", orgID := 42 } = .ok [] :=
  ⟨rfl, C10_getparents_disabled svcOff st0 { uid := "missing", orgID := 42 } rfl⟩

/-- C6 counterexample: a query supplying both a UID and a numeric id
(pointing at two different folders) is not rejected as a request error —
it resolves by precedence to the UID lookup and succeeds. -/
theorem C6_multiple_selectors_cx :
    Service.Get svcN st0
      { uid := some "a", id := some 2, title := none, orgID := 1
      , signedInUser := some uA }
      = .ok { id := 1, uid := "a", orgID := 1, title := "A"
            , description := "da", parentUID := "", version := 3 } := by
  rfl

/-- C6 (amended): a query supplying none of UID, numeric id and title is
a bad request; a query supplying more than one selector is resolved by
precedence — a non-empty UID wins over the numeric id, which wins over
the title — instead of being rejected. -/
theorem C6_selector_precedence (s : Svc) (st : State) (q : GetFolderQuery) :
    ((q.signedInUser.isSome = true) → (q.uid = none ∨ q.uid = some "") →
      q.id = none → q.title = none →
      Service.Get s st q =
        .error (.badRequest "either on of UID, ID, Title fields must be present"))
    ∧ (∀ u, q.uid = some u → u ≠ "" →
        Service.Get s st q = Service.Get s st { q with id := none, title := none })
    ∧ ((q.uid = none ∨ q.uid = some "") → ∀ i, q.id = some i →
        Service.Get s st q = Service.Get s st { q with title := none }) := by
  refine ⟨?_, ?_, ?_⟩
  · intro hu hsel hid htitle
    obtain ⟨u0, hu0⟩ := Option.isSome_iff_exists.mp hu
    rcases hsel with h | h <;>
      simp [Service.Get, selectDashFolder, h, hid, htitle, hu0]
  · intro u hqu hne
    by_cases hsu : q.signedInUser.isNone = true
    · simp [Service.Get, hsu]
    · have hsu' : q.signedInUser.isNone = false := Bool.eq_false_iff.mpr hsu
      have hsel : selectDashFolder st q = getFolderByUID st q.orgID u := by
        simp [selectDashFolder, hqu, hne]
      have hsel2 : selectDashFolder st { q with id := none, title := none }
          = getFolderByUID st q.orgID u := by
        simp [selectDashFolder, hqu, hne]
      simp only [Service.Get, hsu', Bool.false_eq_true, if_false, hsel, hsel2]
      cases hdf : getFolderByUID st q.orgID u with
      | error e => rfl
      | ok f =>
        have hfu : f.uid = u := getFolderByUID_uid hdf
        cases hqid : q.id with
        | none => simp [hqid, storeGet, hqu]
        | some i => simp [hqid, storeGet, hqu, hfu]
  · intro hsel i hqi
    by_cases hsu : q.signedInUser.isNone = true
    · simp [Service.Get, hsu]
    · have hsu' : q.signedInUser.isNone = false := Bool.eq_false_iff.mpr hsu
      have hsel1 : selectDashFolder st q = getFolderByID st i q.orgID := by
        rcases hsel with h | h <;> simp [selectDashFolder, h, hqi]
      have hsel2 : selectDashFolder st { q with title := none }
          = getFolderByID st i q.orgID := by
        rcases hsel with h | h <;> simp [selectDashFolder, h, hqi]
      simp only [Service.Get, hsu', Bool.false_eq_true, if_false, hsel1, hsel2]
      cases hdf : getFolderByID st i q.orgID with
      | error e => rfl
      | ok f => simp [hqi, storeGet]

/-- Witness for C6: both halves of the amended claim at concrete
queries — the empty query errors, and a UID + id query equals the pure
UID query. -/
theorem C6_selector_precedence_witness :
    Service.Get svcN st0
      { uid := none, id := none, title := none, orgID := 1
      , signedInUser := some uA }
      = .error (.badRequest "either on of UID, ID, Title fields must be present")
    ∧ Service.Get svcN st0
        { uid := some "a", id := some 2, title := none, orgID := 1
        , signedInUser := some uA }
      = Service.Get svcN st0
        { uid := some "a", id := none, title := none, orgID := 1
        , signedInUser := some uA } :=
  ⟨(C6_selector_precedence svcN st0
      { uid := none, id := none, title := none, orgID := 1
      , signedInUser := some uA }).1 rfl (Or.inl rfl) rfl rfl,
   (C6_selector_precedence svcN st0
      { uid := some "a", id := some 2, title := none, orgID := 1
      , signedInUser := some uA }).2.1 "a" rfl (by decide)⟩

/-- C5: in nested mode, fetching a non-root folder by UID returns the
nested-store row with its numeric id and version fields replaced by the
legacy-row values — whatever numeric id the nested store carries is
discarded. -/
theorem C5_get_nested_overrides (s : Svc) (st : State) (q : GetFolderQuery)
    (u : String) (d : Dashboard) (nf : NFolder)
    (hn : s.nestedEnabled = true)
    (huser : q.signedInUser.isSome = true)
    (huid : q.uid = some u) (hne : u ≠ "")
    (hleg : lFindFolderRow st.legacy q.orgID u = some d)
    (hid : d.id ≠ 0)
    (hview : s.perms.canView u = true)
    (hnst : nGet st.nested q.orgID u = some nf) :
    Service.Get s st q =
      .ok { id := d.id, uid := nf.uid, orgID := nf.orgID, title := nf.title
          , description := nf.description, parentUID := nf.parentUID
          , version := d.version } := by
  obtain ⟨u0, hu0⟩ := Option.isSome_iff_exists.mp huser
  have hrow := lFindFolderRow_spec hleg
  have hsel : selectDashFolder st q = .ok (toFolder d) := by
    simp [selectDashFolder, huid, hne, getFolderByUID, hleg]
  have hgen : isGeneral (toFolder d) = false := by
    simp [isGeneral, toFolder, hid]
  simp only [Service.Get, hu0, Option.isNone_some, Bool.false_eq_true, if_false,
    hsel, hgen]
  have hviewd : s.perms.canView (toFolder d).uid = true := by
    simp [toFolder, hrow.2.1, hview]
  cases hqid : q.id with
  | none => simp [hviewd, hn, hqid, storeGet, huid, hnst, viewOfN, toFolder, hrow.2.1, hview]
  | some i =>
    simp [hviewd, hn, hqid, storeGet, huid, hnst, viewOfN, toFolder, hrow.2.1, hview]

/-- Witness for C5: folder a of the two-folder state — the nested row
carries id 11 and version 0, the result carries the legacy id 1 and
version 3. -/
theorem C5_get_nested_overrides_witness :
    Service.Get svcN st0
      { uid := some "a", id := none, title := none, orgID := 1
      , signedInUser := some uA }
      = .ok { id := rowA.id, uid := nA.uid, orgID := nA.orgID, title := nA.title
            , description := nA.description, parentUID := nA.parentUID
            , version := rowA.version } :=
  C5_get_nested_overrides svcN st0
    { uid := some "a", id := none, title := none, orgID := 1
    , signedInUser := some uA }
    "a" rowA nA rfl rfl rfl (by decide) (by decide) (by decide) rfl (by decide)

/-- C1: Move rejects exactly the moves past the depth bound — when the
height of the moving subtree plus the ancestor count of the destination
plus 2 exceeds 8, it returns MaxDepthReached leaving both stores
untouched, and when the bound is met the result is never
MaxDepthReached. -/
theorem C1_move_depth (s : Svc) (st : State) (cmd : MoveFolderCommand)
    (u : SUser)
    (huser : cmd.signedInUser = some u)
    (hacc : moveAccess s cmd = true) :
    (nGetHeight st.nested cmd.orgID (st.nested.length + 1) cmd.uid
        + (nGetParents st.nested cmd.orgID (st.nested.length + 1)
            cmd.newParentUID).length + 2 > MaxNestedFolderDepth →
      Service.Move s st cmd = (.error .maxDepthReached, st))
    ∧ (nGetHeight st.nested cmd.orgID (st.nested.length + 1) cmd.uid
        + (nGetParents st.nested cmd.orgID (st.nested.length + 1)
            cmd.newParentUID).length + 2 ≤ MaxNestedFolderDepth →
      (Service.Move s st cmd).1 ≠ .error .maxDepthReached) := by
  constructor
  · intro hgt
    simp [Service.Move, huser, hacc, hgt]
  · intro hle
    have hgt' : ¬ (nGetHeight st.nested cmd.orgID (st.nested.length + 1) cmd.uid
        + (nGetParents st.nested cmd.orgID (st.nested.length + 1)
            cmd.newParentUID).length + 2 > MaxNestedFolderDepth) := by omega
    simp only [Service.Move, huser, hacc]
    simp only [Bool.not_true, Bool.false_eq_true, if_false, hgt']
    split
    · simp
    · split
      · simp
      · split <;> simp

/-- Witness for C1: moving the leaf m under p8 (seven ancestors) has
0 + 7 + 2 = 9 > 8 and is rejected with MaxDepthReached, stores
untouched; moving m under p6 has 0 + 5 + 2 = 7 ≤ 8 and is not rejected
for depth. -/
theorem C1_move_depth_witness :
    Service.Move svcN stChain
      { uid := "m", newParentUID := "p8", orgID := 1, signedInUser := some uA }
      = (.error .maxDepthReached, stChain)
    ∧ (Service.Move svcN stChain
        { uid := "m", newParentUID := "p6", orgID := 1, signedInUser := some uA }).1
      ≠ .error .maxDepthReached :=
  ⟨(C1_move_depth svcN stChain
      { uid := "m", newParentUID := "p8", orgID := 1, signedInUser := some uA }
      uA rfl rfl).1 (by decide),
   (C1_move_depth svcN stChain
      { uid := "m", newParentUID := "p6", orgID := 1, signedInUser := some uA }
      uA rfl rfl).2 (by decide)⟩

/-- C2 counterexample: moving folder a under itself — a destination
inside the subtree of a — is not rejected with CircularReference: the
ancestor-chain walk of the destination does not contain a (a folder is
not its own ancestor), so the move goes through and installs a
self-loop. -/
theorem C2_move_under_itself_cx :
    (Service.Move svcN st0
      { uid := "a", newParentUID := "a", orgID := 1, signedInUser := some uA }).1
      = .ok { id := 11, uid := "a", orgID := 1, title := "A"
            , description := "da", parentUID := "a", version := 0 } := by
  rfl

/-- C2 (amended): moving a folder under a strict descendant — any
destination whose ancestor chain contains the moving folder — is
rejected with CircularReference and neither store is mutated, provided
the depth bound does not fire first; moving a folder under itself is not
covered by the ancestor-chain check. -/
theorem C2_move_under_descendant (s : Svc) (st : State)
    (cmd : MoveFolderCommand) (u : SUser)
    (huser : cmd.signedInUser = some u)
    (hacc : moveAccess s cmd = true)
    (hdesc : cmd.uid ∈ (nGetParents st.nested cmd.orgID (st.nested.length + 1)
        cmd.newParentUID).map (·.uid))
    (hdepth : nGetHeight st.nested cmd.orgID (st.nested.length + 1) cmd.uid
        + (nGetParents st.nested cmd.orgID (st.nested.length + 1)
            cmd.newParentUID).length + 2 ≤ MaxNestedFolderDepth) :
    Service.Move s st cmd = (.error .circularReference, st) := by
  have hgt' : ¬ (nGetHeight st.nested cmd.orgID (st.nested.length + 1) cmd.uid
      + (nGetParents st.nested cmd.orgID (st.nested.length + 1)
          cmd.newParentUID).length + 2 > MaxNestedFolderDepth) := by omega
  have hany : (nGetParents st.nested cmd.orgID (st.nested.length + 1)
      cmd.newParentUID).any (fun p => p.uid == cmd.uid) = true := by
    rw [List.any_eq_true]
    obtain ⟨p, hp, hpu⟩ := List.mem_map.mp hdesc
    exact ⟨p, hp, by simp [hpu]⟩
  simp [Service.Move, huser, hacc, hgt', hany]

/-- Witness for C2: b is a strict descendant of a in the two-folder
state; moving a under b is rejected with CircularReference and the state
is unchanged. -/
theorem C2_move_under_descendant_witness :
    Service.Move svcN st0
      { uid := "a", newParentUID := "b", orgID := 1, signedInUser := some uA }
      = (.error .circularReference, st0) :=
  C2_move_under_descendant svcN st0
    { uid := "a", newParentUID := "b", orgID := 1, signedInUser := some uA }
    uA rfl rfl (by decide) (by decide)

/-- C8: a Create whose title trims to the empty string fails with the
folder-title-empty error before any store write: both stores are exactly
as before. -/
theorem C8_create_empty_title (s : Svc) (st : State)
    (cmd : CreateFolderCommand) (u : SUser)
    (huser : cmd.signedInUser = some u)
    (hgate : s.nestedEnabled = true → cmd.parentUID ≠ "" →
      s.perms.acFoldersWrite cmd.parentUID = true)
    (hgen : trimStr cmd.uid ≠ GeneralFolderUID)
    (htitle : trimStr cmd.title = "") :
    Service.Create s st cmd = ((none, some .folderTitleEmpty), st) := by
  have hgateP : ¬ ((s.nestedEnabled = true ∧ ¬ cmd.parentUID = "") ∧
      s.perms.acFoldersWrite cmd.parentUID = false) := by
    rintro ⟨⟨h1, h2⟩, h3⟩
    rw [hgate h1 h2] at h3
    cases h3
  have htitle' : trimStr (createDashFolder s cmd u).title = "" := by
    rw [createDashFolder_title]
    exact htitle
  have hbuild : buildSaveDashboardCommand s.perms st.legacy
      (createDashFolder s cmd u) false = .error .dashTitleEmpty := by
    simp [buildSaveDashboardCommand, htitle']
  simp [Service.Create, huser, hgateP, hgen, hbuild, toFolderError]

/-- Witness for C8: creating a folder titled with blanks only in the
two-folder state returns the title-empty error and leaves the state
unchanged. -/
theorem C8_create_empty_title_witness :
    Service.Create svcN st0
      { uid := "x", orgID := 1, title := "  ", description := ""
      , parentUID := "", signedInUser := some uA }
      = ((none, some .folderTitleEmpty), st0) :=
  C8_create_empty_title svcN st0
    { uid := "x", orgID := 1, title := "  ", description := ""
    , parentUID := "", signedInUser := some uA }
    uA rfl (fun _ h => absurd rfl h) (by decide) (by decide)

/-- C4: when the legacy save of Create succeeds and the nested-store
write fails, the freshly written legacy row is deleted as compensation,
the nested store is left untouched, and the error handed back to the
caller is exactly the nested-store error, accompanied by the best-effort
legacy folder; the outcome of the compensating delete never replaces
that error (the returned pair does not depend on it). -/
theorem C4_create_compensation (s : Svc) (st : State)
    (cmd : CreateFolderCommand) (u : SUser) (sc dash : Dashboard)
    (legacy1 : List Dashboard) (createdRow : Dashboard) (e : Err)
    (huser : cmd.signedInUser = some u)
    (hgate : s.nestedEnabled = true → cmd.parentUID ≠ "" →
      s.perms.acFoldersWrite cmd.parentUID = true)
    (hgen : trimStr cmd.uid ≠ GeneralFolderUID)
    (hbuild : buildSaveDashboardCommand s.perms st.legacy
      (createDashFolder s cmd u) false = .ok sc)
    (hsave : saveDashboard st.legacy sc = (dash, legacy1))
    (hrow : lFindFolderRowByID legacy1 cmd.orgID (dash.id : Int) = some createdRow)
    (hnested : nestedFolderCreate st.nested
        { uid := dash.uid, orgID := cmd.orgID, title := cmd.title
        , description := cmd.description, parentUID := cmd.parentUID
        , signedInUser := cmd.signedInUser } = .error e) :
    Service.Create s st cmd =
      ((some (fromDashboard dash), some e),
       { legacy := deleteDashboardRows legacy1 createdRow.orgID createdRow.id
       , nested := st.nested }) := by
  have hgateP : ¬ ((s.nestedEnabled = true ∧ ¬ cmd.parentUID = "") ∧
      s.perms.acFoldersWrite cmd.parentUID = false) := by
    rintro ⟨⟨h1, h2⟩, h3⟩
    rw [hgate h1 h2] at h3
    cases h3
  rw [huser] at hnested
  simp [Service.Create, huser, hgateP, hgen, hbuild, hsave, hrow, hnested,
    toFolder]

/-- Witness for C4: creating folder c in that state saves the legacy
row (id 1), then fails the nested write with the duplicate-UID error;
Create returns that error together with the saved legacy folder, and the
final state has the compensating delete applied (the legacy store is
empty again) with the nested store untouched. -/
theorem C4_create_compensation_witness :
    Service.Create svcN stC4
      { uid := "c", orgID := 1, title := "C", description := ""
      , parentUID := "", signedInUser := some uA }
      = ((some (fromDashboard
            { id := 1, uid := "c", orgID := 1, title := "C", folderID := 0
            , folderUID := "", isFolder := true, version := 1
            , createdBy := 7, updatedBy := 7 }), some .folderWithSameUIDExists),
         { legacy := deleteDashboardRows
             [{ id := 1, uid := "c", orgID := 1, title := "C", folderID := 0
              , folderUID := "", isFolder := true, version := 1
              , createdBy := 7, updatedBy := 7 }] 1 1
         , nested := stC4.nested }) :=
  C4_create_compensation svcN stC4
    { uid := "c", orgID := 1, title := "C", description := ""
    , parentUID := "", signedInUser := some uA }
    uA
    { id := 0, uid := "c", orgID := 1, title := "C", folderID := 0
    , folderUID := "", isFolder := true, version := 0
    , createdBy := 7, updatedBy := 7 }
    { id := 1, uid := "c", orgID := 1, title := "C", folderID := 0
    , folderUID := "", isFolder := true, version := 1
    , createdBy := 7, updatedBy := 7 }
    [{ id := 1, uid := "c", orgID := 1, title := "C", folderID := 0
     , folderUID := "", isFolder := true, version := 1
     , createdBy := 7, updatedBy := 7 }]
    { id := 1, uid := "c", orgID := 1, title := "C", folderID := 0
    , folderUID := "", isFolder := true, version := 1
    , createdBy := 7, updatedBy := 7 }
    .folderWithSameUIDExists
    rfl (fun _ h => absurd rfl h) (by decide) rfl rfl rfl rfl

theorem legacyUpdate_nested_frame (s : Svc) (st : State)
    (cmd : UpdateFolderCommand) :
    (legacyUpdate s st cmd).2.nested = st.nested := by
  unfold legacyUpdate
  repeat' split
  all_goals try (dsimp only; repeat' split)
  all_goals rfl

theorem find?_map_replace {α : Type} (q : α → Bool) (r : α) (l : List α)
    (hr : q r = true) (hex : ∃ x ∈ l, q x = true) :
    (l.map (fun x => if q x then r else x)).find? q = some r := by
  induction l with
  | nil =>
    obtain ⟨x, hx, _⟩ := hex
    cases hx
  | cons a as ih =>
    by_cases ha : q a = true
    · simp only [List.map_cons, if_pos ha]
      exact List.find?_cons_of_pos _ hr
    · simp only [List.map_cons, if_neg ha]
      rw [List.find?_cons_of_neg _ ha]
      apply ih
      obtain ⟨x, hx, hqx⟩ := hex
      rcases List.mem_cons.mp hx with h | h
      · subst h; exact absurd hqx ha
      · exact ⟨x, h, hqx⟩

theorem nUpdate_parent_frame (ns : List NFolder) (cmd : UpdateFolderCommand)
    (hun : nestedKeysUnique ns) (hpar : cmd.newParentUID = none)
    {nf : NFolder} {ns1 : List NFolder}
    (h : nUpdate ns cmd = .ok (nf, ns1)) :
    ns1.map (fun f => (f.uid, f.orgID, f.parentUID))
      = ns.map (fun f => (f.uid, f.orgID, f.parentUID)) := by
  unfold nUpdate at h
  cases hg : nGet ns cmd.orgID cmd.uid with
  | none => rw [hg] at h; cases h
  | some f =>
    rw [hg] at h
    injection h with h'
    injection h' with hnf hns1
    subst hns1
    rw [List.map_map]
    apply List.map_congr_left
    intro x hx
    simp only [Function.comp_apply]
    by_cases hc : (x.orgID == cmd.orgID && x.uid == cmd.uid) = true
    · rw [if_pos hc]
      have hf : f ∈ ns := List.mem_of_find?_eq_some hg
      have hfp := List.find?_some hg
      simp only [Bool.and_eq_true, beq_iff_eq] at hc hfp
      have hx_eq : x = f := hun x hx f hf (hc.1.trans hfp.1.symm) (hc.2.trans hfp.2.symm)
      subst hx_eq
      simp [hpar]
    · rw [if_neg hc]

theorem legacyUpdate_applies_parent (s : Svc) (st : State)
    (cmd : UpdateFolderCommand) (p : String) (f0 : Folder) (st1 : State)
    (hp : cmd.newParentUID = some p)
    (htrim : trimStr cmd.uid = cmd.uid)
    (hne : cmd.uid ≠ "")
    (h : legacyUpdate s st cmd = (.ok f0, st1)) :
    ∃ d, lGetDashboard st1.legacy cmd.orgID cmd.uid = some d
      ∧ d.folderUID = p := by
  unfold legacyUpdate at h
  cases hd0 : lGetDashboard st.legacy cmd.orgID cmd.uid with
  | none => rw [hd0] at h; simp at h
  | some d0 =>
    rw [hd0] at h
    have hd0p := List.find?_some hd0
    simp only [Bool.and_eq_true, beq_iff_eq] at hd0p
    rw [hp] at h
    dsimp only at h
    by_cases hfold : d0.isFolder = true
    case neg =>
      rw [if_pos (by simp [Bool.eq_false_iff.mpr hfold])] at h
      simp at h
    case pos =>
      rw [if_neg (by simp [hfold])] at h
      cases hu : cmd.signedInUser with
      | none => rw [hu] at h; simp at h
      | some u =>
        rw [hu] at h
        dsimp only at h
        cases hb : buildSaveDashboardCommand s.perms st.legacy
            (prepareForUpdate { d0 with folderUID := p } cmd.orgID (rawUserID u) cmd)
            cmd.overwrite with
        | error e => rw [hb] at h; simp at h
        | ok sc =>
          rw [hb] at h
          dsimp only at h
          have hsc : sc.folderUID = p ∧ sc.uid = cmd.uid ∧ sc.orgID = cmd.orgID := by
            unfold buildSaveDashboardCommand at hb
            dsimp only at hb
            repeat' split at hb
            all_goals first
              | (simp at hb; done)
              | (injection hb with hb'; subst hb';
                 exact ⟨rfl, by simp [prepareForUpdate, hd0p.2, htrim], rfl⟩)
          obtain ⟨hscf, hscu, hsco⟩ := hsc
          have hexrow : ∃ x ∈ st.legacy,
              (x.orgID == sc.orgID && x.uid == sc.uid) = true := by
            refine ⟨d0, List.mem_of_find?_eq_some hd0, ?_⟩
            simp [hsco, hscu, hd0p.1, hd0p.2]
          unfold saveDashboard at h
          rw [if_neg (by rw [hscu]; exact hne)] at h
          dsimp only at h
          cases hold : st.legacy.find?
              (fun d => d.orgID == sc.orgID && d.uid == sc.uid) with
          | none =>
            obtain ⟨x, hx, hqx⟩ := hexrow
            exact absurd hqx (List.find?_eq_none.mp hold x hx)
          | some old =>
            rw [hold] at h
            dsimp only at h
            cases hlast : lFindFolderRowByID
                (st.legacy.map (fun d =>
                  if d.orgID == sc.orgID && d.uid == sc.uid then
                    { sc with uid := sc.uid, id := old.id, version := old.version + 1 }
                  else d))
                cmd.orgID
                (({ sc with uid := sc.uid, id := old.id, version := old.version + 1 } : Dashboard).id : Int) with
            | none => rw [hlast] at h; simp at h
            | some row =>
              rw [hlast] at h
              injection h with hres hst1
              subst hst1
              refine ⟨{ sc with uid := sc.uid, id := old.id, version := old.version + 1 }, ?_, hscf⟩
              simp only [lGetDashboard]
              have := find?_map_replace
                (fun d => d.orgID == sc.orgID && d.uid == sc.uid)
                { sc with uid := sc.uid, id := old.id, version := old.version + 1 }
                st.legacy (by simp) hexrow
              simpa [hsco, hscu] using this

/-- C9: an Update never changes the parent pointer of any nested-store
row — even when the command carries a NewParentUID — because the update
sent to the nested store carries only the new title and description;
the new parent is applied to the legacy row only. -/
theorem C9_update_parent_frame (s : Svc) (st : State)
    (cmd : UpdateFolderCommand)
    (hun : nestedKeysUnique st.nested) :
    ((Service.Update s st cmd).2.nested.map (fun f => (f.uid, f.orgID, f.parentUID))
      = st.nested.map (fun f => (f.uid, f.orgID, f.parentUID)))
    ∧ (∀ p f0 st1, cmd.newParentUID = some p →
        trimStr cmd.uid = cmd.uid → cmd.uid ≠ "" →
        legacyUpdate s st cmd = (.ok f0, st1) →
        ∃ d, lGetDashboard st1.legacy cmd.orgID cmd.uid = some d
          ∧ d.folderUID = p) := by
  constructor
  · cases hu : cmd.signedInUser with
    | none => simp [Service.Update, hu]
    | some u =>
      simp only [Service.Update, hu]
      cases hlu : legacyUpdate s st cmd with
      | mk res st1 =>
        have hn1 : st1.nested = st.nested := by
          have hfr := legacyUpdate_nested_frame s st cmd
          rw [hlu] at hfr
          exact hfr
        cases res with
        | error e => simp [hn1]
        | ok dashFolder =>
          cases hnu : nUpdate st1.nested
              { uid := cmd.uid, orgID := cmd.orgID, newTitle := cmd.newTitle
              , newDescription := cmd.newDescription, newParentUID := none
              , version := 0, overwrite := false
              , signedInUser := some u } with
          | error e =>
            simp only [hnu]
            by_cases he : e = Err.folderNotFound <;> simp [he, hn1]
          | ok pr =>
            obtain ⟨nf, ns1⟩ := pr
            simp only [hnu]
            rw [hn1] at hnu
            have hframe := nUpdate_parent_frame st.nested _ hun rfl hnu
            simpa using hframe
  · intro p f0 st1 hp htrim hne h
    exact legacyUpdate_applies_parent s st cmd p f0 st1 hp htrim hne h

/-- Witness for C9: updating folder a with NewParentUID b leaves every
nested parent pointer unchanged, while the legacy row of a now carries
folder UID b. -/
theorem C9_update_parent_frame_witness :
    ((Service.Update svcN st0 c9cmd).2.nested.map
        (fun f => (f.uid, f.orgID, f.parentUID))
      = st0.nested.map (fun f => (f.uid, f.orgID, f.parentUID)))
    ∧ (∃ d, lGetDashboard (legacyUpdate svcN st0 c9cmd).2.legacy
          c9cmd.orgID c9cmd.uid = some d ∧ d.folderUID = "b") :=
  ⟨(C9_update_parent_frame svcN st0 c9cmd (by unfold nestedKeysUnique; decide)).1,
   (C9_update_parent_frame svcN st0 c9cmd (by unfold nestedKeysUnique; decide)).2 "b"
     { id := 1, uid := "a", orgID := 1, title := "A2", description := ""
     , parentUID := "", version := 4 }
     (legacyUpdate svcN st0 c9cmd).2
     rfl (by decide) (by decide) rfl⟩

theorem childrenLoop_eq (s : Svc) (quid : String) (rows : List Dashboard)
    (org : Int) (uids : List String) (l : List NFolder)
    (hmem : ∀ f ∈ l, f.uid ∈ uids) :
    childrenLoop s quid (lGetFoldersLookup rows org uids) l
      = l.filterMap (fun f =>
          match lFindFolderRow rows org f.uid with
          | none => none
          | some d =>
            if quid ≠ "" then some { viewOfN f with id := d.id }
            else if s.perms.canView d.uid then some { viewOfN f with id := d.id }
            else none) := by
  induction l with
  | nil => rfl
  | cons f fs ih =>
    have hf : f.uid ∈ uids := hmem f (List.mem_cons_self f fs)
    have htail : ∀ g ∈ fs, g.uid ∈ uids :=
      fun g hg => hmem g (List.mem_cons_of_mem f hg)
    have hcontains : uids.contains f.uid = true :=
      List.elem_eq_true_of_mem hf
    simp only [childrenLoop, lGetFoldersLookup, hcontains, if_true,
      List.filterMap_cons]
    cases hd : lFindFolderRow rows org f.uid with
    | none => simpa using ih htail
    | some d =>
      rw [ih htail]
      by_cases hq : quid ≠ ""
      · simp [hq]
      · by_cases hv : s.perms.canView d.uid = true
        · simp [hq, hv]
        · simp [hq, Bool.eq_false_iff.mpr hv]

/-- C7 (amended): GetChildren returns exactly the nested-store children
that have a legacy row, each with the legacy numeric id attached
(children missing from the legacy store are skipped without failing the
listing); for a root listing the survivors are additionally filtered by
the per-child view capability. -/
theorem C7_children_legacy_filter (s : Svc) (st : State)
    (q : GetChildrenQuery)
    (huser : q.signedInUser.isSome = true)
    (hview : q.uid ≠ "" → s.perms.canView q.uid = true) :
    Service.GetChildren s st q =
      .ok ((nGetChildren st.nested q.orgID q.uid).filterMap (fun f =>
        match lFindFolderRow st.legacy q.orgID f.uid with
        | none => none
        | some d =>
          if q.uid ≠ "" then some { viewOfN f with id := d.id }
          else if s.perms.canView d.uid then some { viewOfN f with id := d.id }
          else none)) := by
  obtain ⟨u0, hu0⟩ := Option.isSome_iff_exists.mp huser
  have hacc : (q.uid ≠ "" && !(s.perms.canView q.uid)) = false := by
    by_cases hq : q.uid = ""
    · simp [hq]
    · simp [hq, hview hq]
  simp only [Service.GetChildren, hu0, Option.isNone_some, Bool.false_eq_true,
    if_false, hacc]
  rw [childrenLoop_eq]
  intro f hf
  exact List.mem_map_of_mem (·.uid) hf

/-- C7 counterexample: on a root listing, a child present in both
stores is dropped by the per-child view check, so the result is not the
nested children restricted to the legacy batch lookup with ids attached
— that restriction is the one-element list while GetChildren returns the
empty list. -/
theorem C7_root_view_filter_cx :
    Service.GetChildren svcC7 stC7
      { uid := "", orgID := 1, signedInUser := some uA } = .ok []
    ∧ (nGetChildren stC7.nested 1 "").filterMap (fun f =>
        match lFindFolderRow stC7.legacy 1 f.uid with
        | none => none
        | some d => some { viewOfN f with id := d.id })
      = [{ viewOfN nC7 with id := 3 }]
    ∧ ([] : List Folder) ≠ [{ viewOfN nC7 with id := 3 }] :=
  ⟨rfl, rfl, by decide⟩

/-- Witness for C7: listing the children of folder a in the two-folder
state through the amended equation. -/
theorem C7_children_legacy_filter_witness :
    Service.GetChildren svcN st0
      { uid := "a", orgID := 1, signedInUser := some uA }
      = .ok ((nGetChildren st0.nested 1 "a").filterMap (fun f =>
        match lFindFolderRow st0.legacy 1 f.uid with
        | none => none
        | some d =>
          if ("a" : String) ≠ "" then some { viewOfN f with id := d.id }
          else if svcN.perms.canView d.uid then some { viewOfN f with id := d.id }
          else none)) :=
  C7_children_legacy_filter svcN st0
    { uid := "a", orgID := 1, signedInUser := some uA } rfl (fun _ => rfl)

theorem rootUID_mem_flattenT (t : UTree) : t.rootUID ∈ flattenT t := by
  cases t with
  | node u cs => simp [UTree.rootUID, flattenT]

theorem rootsF_subset_flattenF : ∀ (F : UForest), ∀ x ∈ rootsF F, x ∈ flattenF F
  | .fnil => by intro x hx; cases hx
  | .fcons t ts => by
    intro x hx
    rcases List.mem_cons.mp hx with h | h
    · subst h
      exact List.mem_append_left _ (rootUID_mem_flattenT t)
    · exact List.mem_append_right _ (rootsF_subset_flattenF ts x h)

theorem nGetChildren_org {ns : List NFolder} {org : Int} {u : String} :
    ∀ c ∈ nGetChildren ns org u, c.orgID = org := by
  intro c hc
  have := List.of_mem_filter hc
  simp only [Bool.and_eq_true, beq_iff_eq] at this
  exact this.1

theorem nGetChildren_remove (ns : List NFolder) (org : Int)
    (R : List String) (u : String)
    (h : ∀ c ∈ nGetChildren ns org u, ¬ c.uid ∈ R) :
    nGetChildren (removeNestedByUIDs ns org R) org u
      = nGetChildren ns org u := by
  unfold nGetChildren removeNestedByUIDs
  rw [List.filter_filter]
  apply List.filter_congr
  intro a ha
  by_cases hq : (a.orgID == org && a.parentUID == u) = true
  · have hmem : a ∈ nGetChildren ns org u :=
      List.mem_filter.mpr ⟨ha, hq⟩
    have hnr : ¬ a.uid ∈ R := h a hmem
    have hcont : R.contains a.uid = false := by
      cases hR : R.contains a.uid
      · rfl
      · exact absurd (List.mem_of_elem_eq_true hR) hnr
    rw [hq, hcont]
    simp
  · rw [Bool.eq_false_iff.mpr hq]
    simp

theorem nGet_remove (ns : List NFolder) (org : Int) (R : List String)
    (u : String) (hu : ¬ u ∈ R) :
    nGet (removeNestedByUIDs ns org R) org u = nGet ns org u := by
  induction ns with
  | nil => rfl
  | cons a as ih =>
    unfold removeNestedByUIDs at ih ⊢
    unfold nGet at ih ⊢
    simp only [List.filter_cons]
    by_cases hk : (!(a.orgID == org && R.contains a.uid)) = true
    · rw [if_pos hk]
      by_cases hp : (a.orgID == org && a.uid == u) = true
      · simp only [List.find?, hp]
      · simp only [List.find?, Bool.eq_false_iff.mpr hp]
        exact ih
    · rw [if_neg hk]
      have hk' : (a.orgID == org && R.contains a.uid) = true := by
        cases hb : (a.orgID == org && R.contains a.uid)
        · rw [hb] at hk; simp at hk
        · rfl
      have hp : ¬ (a.orgID == org && a.uid == u) = true := by
        intro hpp
        simp only [Bool.and_eq_true, beq_iff_eq] at hpp hk'
        rw [hpp.2] at hk'
        exact hu (List.mem_of_elem_eq_true hk'.2)
      simp only [List.find?, Bool.eq_false_iff.mpr hp]
      exact ih

theorem lFindFolderRow_remove_none (rows : List Dashboard) (org : Int)
    (uids : List String) (u : String) (hu : u ∈ uids) :
    lFindFolderRow (removeLegacyByUIDs rows org uids) org u = none := by
  unfold lFindFolderRow removeLegacyByUIDs
  rw [List.find?_eq_none]
  intro d hd hp
  have hkeep := List.of_mem_filter hd
  simp only [Bool.and_eq_true, beq_iff_eq] at hp
  have : (d.orgID == org && uids.contains d.uid) = true := by
    rw [hp.1.2]
    simp only [hp.1.1, beq_self_eq_true, Bool.true_and]
    exact List.elem_eq_true_of_mem hu
  rw [this] at hkeep
  cases hkeep

theorem removeNested_append (ns : List NFolder) (org : Int)
    (A B : List String) :
    removeNestedByUIDs (removeNestedByUIDs ns org A) org B
      = removeNestedByUIDs ns org (A ++ B) := by
  unfold removeNestedByUIDs
  rw [List.filter_filter]
  apply List.filter_congr
  intro d _
  by_cases hA : d.uid ∈ A <;> by_cases hB : d.uid ∈ B <;>
    simp [hA, hB, List.mem_append]

theorem nDeleteRow_eq_remove (ns : List NFolder) (org : Int) (u : String) :
    nDeleteRow ns org u = removeNestedByUIDs ns org [u] := by
  unfold nDeleteRow removeNestedByUIDs
  apply List.filter_congr
  intro d _
  by_cases h : d.uid = u <;> simp [h]

theorem removeNested_congr (ns : List NFolder) (org : Int)
    (A B : List String) (h : ∀ x, x ∈ A ↔ x ∈ B) :
    removeNestedByUIDs ns org A = removeNestedByUIDs ns org B := by
  unfold removeNestedByUIDs
  apply List.filter_congr
  intro d _
  by_cases hA : d.uid ∈ A
  · simp [hA, (h d.uid).mp hA]
  · have hB : ¬ d.uid ∈ B := fun hc => hA ((h d.uid).mpr hc)
    simp [hA, hB]

mutual
theorem repT_remove (ns : List NFolder) (org : Int) (R : List String) :
    ∀ (t : UTree), repT ns org t = true →
      (∀ x ∈ flattenT t, ¬ x ∈ R) →
      repT (removeNestedByUIDs ns org R) org t = true
  | .node u cs => by
    intro hrep hdis
    unfold repT at hrep ⊢
    simp only [Bool.and_eq_true, beq_iff_eq] at hrep
    obtain ⟨hch, hrf⟩ := hrep
    have hchr : nGetChildren (removeNestedByUIDs ns org R) org u
        = nGetChildren ns org u := by
      apply nGetChildren_remove
      intro c hc
      apply hdis
      have hm : c.uid ∈ (nGetChildren ns org u).map (·.uid) :=
        List.mem_map_of_mem _ hc
      rw [hch] at hm
      exact List.mem_cons.mpr (Or.inr (rootsF_subset_flattenF cs c.uid hm))
    rw [hchr]
    simp only [Bool.and_eq_true, beq_iff_eq]
    refine ⟨hch, repF_remove ns org R cs hrf ?_⟩
    intro x hx
    exact hdis x (List.mem_cons.mpr (Or.inr hx))
theorem repF_remove (ns : List NFolder) (org : Int) (R : List String) :
    ∀ (F : UForest), repF ns org F = true →
      (∀ x ∈ flattenF F, ¬ x ∈ R) →
      repF (removeNestedByUIDs ns org R) org F = true
  | .fnil => by intro _ _; rfl
  | .fcons t ts => by
    intro hrep hdis
    unfold repF at hrep ⊢
    simp only [Bool.and_eq_true] at hrep ⊢
    exact ⟨repT_remove ns org R t hrep.1
        (fun x hx => hdis x (List.mem_append_left _ hx)),
      repF_remove ns org R ts hrep.2
        (fun x hx => hdis x (List.mem_append_right _ hx))⟩
end

theorem nodeOK_remove (s : Svc) (st : State) (org : Int) (R : List String)
    (u : String) (hok : nodeOK s st org u = true) (hu : ¬ u ∈ R) :
    nodeOK s { st with nested := removeNestedByUIDs st.nested org R }
      org u = true := by
  unfold nodeOK at hok ⊢
  rw [show ({ st with nested := removeNestedByUIDs st.nested org R } : State).nested
      = removeNestedByUIDs st.nested org R from rfl]
  rw [nGet_remove st.nested org R u hu]
  exact hok

theorem nodeOK_unpack (s : Svc) (st : State) (org : Int) (u : String)
    (hok : nodeOK s st org u = true) :
    u ≠ "" ∧ (∃ nf, nGet st.nested org u = some nf) ∧
    (∃ d, lFindFolderRow st.legacy org u = some d ∧ d.id ≠ 0 ∧
      s.perms.canView u = true) := by
  unfold nodeOK at hok
  simp only [Bool.and_eq_true] at hok
  obtain ⟨⟨hne, hsome⟩, hrest⟩ := hok
  refine ⟨by simpa using hne, Option.isSome_iff_exists.mp hsome, ?_⟩
  cases hd : lFindFolderRow st.legacy org u with
  | none => rw [hd] at hrest; cases hrest
  | some d =>
    rw [hd] at hrest
    simp only [Bool.and_eq_true] at hrest
    exact ⟨d, rfl, by simpa using hrest.1, hrest.2⟩

theorem get_ok_of_nodeOK (s : Svc) (st : State) (org : Int) (u : String)
    (su : Option SUser)
    (hok : nodeOK s st org u = true) (hsu : su.isSome = true) :
    ∃ f, Service.Get s st
      { uid := some u, id := none, title := none, orgID := org
      , signedInUser := su } = .ok f := by
  obtain ⟨u0, hu0⟩ := Option.isSome_iff_exists.mp hsu
  subst hu0
  obtain ⟨hne, ⟨nf, hnf⟩, d, hd, hid, hview⟩ := nodeOK_unpack s st org u hok
  have hsel : selectDashFolder st
      { uid := some u, id := none, title := none, orgID := org
      , signedInUser := some u0 } = .ok (toFolder d) := by
    simp [selectDashFolder, hne, getFolderByUID, hd]
  have hgen : isGeneral (toFolder d) = false := by
    simp [isGeneral, toFolder, hid]
  have hviewd : s.perms.canView (toFolder d).uid = true := by
    have := (lFindFolderRow_spec hd).2.1
    simp [toFolder, this, hview]
  by_cases hnest : s.nestedEnabled = true
  · have hres : Service.Get s st
        { uid := some u, id := none, title := none, orgID := org
        , signedInUser := some u0 }
        = .ok { id := d.id, uid := nf.uid, orgID := nf.orgID, title := nf.title
              , description := nf.description, parentUID := nf.parentUID
              , version := d.version } := by
      simp [Service.Get, hsel, isGeneral, hid, (lFindFolderRow_spec hd).2.1,
        hview, hnest, storeGet, hnf, viewOfN, toFolder]
    exact ⟨_, hres⟩
  · have hres : Service.Get s st
        { uid := some u, id := none, title := none, orgID := org
        , signedInUser := some u0 } = .ok (toFolder d) := by
      simp [Service.Get, hsel, isGeneral, hid, (lFindFolderRow_spec hd).2.1,
        hview, Bool.eq_false_iff.mpr hnest, toFolder]
    exact ⟨_, hres⟩

mutual
theorem heightT_le_flattenT : ∀ t : UTree, heightT t ≤ (flattenT t).length
  | .node u cs => by
    have := heightF_le_flattenF cs
    simp only [heightT, flattenT, List.length_cons]
    omega
theorem heightF_le_flattenF : ∀ F : UForest, heightF F ≤ (flattenF F).length
  | .fnil => by simp [heightF, flattenF]
  | .fcons t ts => by
    have h1 := heightT_le_flattenT t
    have h2 := heightF_le_flattenF ts
    simp only [heightF, flattenF, List.length_append]
    omega
end

theorem flatten_length_le (s : Svc) (st : State) (org : Int) (T : UTree)
    (hok : ∀ u ∈ flattenT T, nodeOK s st org u = true)
    (hnd : (flattenT T).Nodup) :
    (flattenT T).length ≤ st.nested.length := by
  have hsub : flattenT T ⊆ st.nested.map (·.uid) := by
    intro u hu
    obtain ⟨_, ⟨nf, hnf⟩, _⟩ := nodeOK_unpack s st org u (hok u hu)
    have hmem : nf ∈ st.nested := List.mem_of_find?_eq_some hnf
    have hp := List.find?_some hnf
    simp only [Bool.and_eq_true, beq_iff_eq] at hp
    rw [← hp.2]
    exact List.mem_map_of_mem _ hmem
  calc (flattenT T).length
      ≤ (st.nested.map (·.uid)).length := (hnd.subperm hsub).length_le
    _ = st.nested.length := List.length_map _ _

theorem removeNested_nil (ns : List NFolder) (org : Int) :
    removeNestedByUIDs ns org [] = ns := by
  unfold removeNestedByUIDs
  simp

theorem flattenT_eq (t : UTree) :
    flattenT t = t.rootUID :: flattenF t.childrenF := by
  cases t
  rfl

theorem isNone_false_of_isSome {α : Type} {o : Option α}
    (h : o.isSome = true) : o.isNone = false := by
  cases o
  · cases h
  · rfl

mutual

theorem nfd_spec : ∀ (T : UTree) (fuel : Nat) (s : Svc) (st : State)
    (org : Int) (cmd : DeleteFolderCommand),
    heightT T ≤ fuel → cmd.uid = T.rootUID → cmd.orgID = org →
    cmd.signedInUser.isSome = true → repT st.nested org T = true →
    (∀ u ∈ flattenT T, nodeOK s st org u = true) → (flattenT T).Nodup →
    nestedFolderDelete fuel s st cmd =
      (.ok (flattenF T.childrenF),
       { st with nested := removeNestedByUIDs st.nested org (flattenT T) })
  | .node u cs => by
    intro fuel s st org cmd hfuel huid horg huser hrep hok hnd
    subst horg
    have huid' : cmd.uid = u := huid
    subst huid'
    cases fuel with
    | zero => exact absurd hfuel (by simp [heightT])
    | succ f =>
      have husn : cmd.signedInUser.isNone = false := isNone_false_of_isSome huser
      have hroot : nodeOK s st cmd.orgID cmd.uid = true := by
        apply hok
        exact rootUID_mem_flattenT (UTree.node cmd.uid cs)
      obtain ⟨fv, hget⟩ :=
        get_ok_of_nodeOK s st cmd.orgID cmd.uid cmd.signedInUser hroot huser
      have hrep' := hrep
      unfold repT at hrep'
      simp only [Bool.and_eq_true, beq_iff_eq] at hrep'
      obtain ⟨hch, hrepF⟩ := hrep'
      have hokF : ∀ v ∈ flattenF cs, nodeOK s st cmd.orgID v = true := by
        intro v hv
        exact hok v (List.mem_cons.mpr (Or.inr hv))
      have hndF : (flattenF cs).Nodup := by
        have hx : (flattenT (UTree.node cmd.uid cs)).Nodup := hnd
        rw [show flattenT (UTree.node cmd.uid cs) = cmd.uid :: flattenF cs
          from rfl] at hx
        exact hx.of_cons
      have h2 := nfdc_spec cs f s st cmd.orgID cmd
        (nGetChildren st.nested cmd.orgID cmd.uid)
        (by
          have hh : heightT (UTree.node cmd.uid cs) = heightF cs + 1 := rfl
          omega)
        hch nGetChildren_org huser hrepF hokF hndF
      simp only [nestedFolderDelete, husn, Bool.false_eq_true, if_false,
        hget, h2, UTree.childrenF, Prod.mk.injEq, State.mk.injEq]
      refine ⟨trivial, trivial, ?_⟩
      rw [nDeleteRow_eq_remove, removeNested_append]
      apply removeNested_congr
      intro x
      rw [show flattenT (UTree.node cmd.uid cs) = cmd.uid :: flattenF cs
        from rfl]
      simp [or_comm]

theorem nfdc_spec : ∀ (F : UForest) (fuel : Nat) (s : Svc) (st : State)
    (org : Int) (cmd : DeleteFolderCommand) (rows : List NFolder),
    heightF F ≤ fuel → rows.map (·.uid) = rootsF F →
    (∀ r ∈ rows, r.orgID = org) →
    cmd.signedInUser.isSome = true → repF st.nested org F = true →
    (∀ u ∈ flattenF F, nodeOK s st org u = true) → (flattenF F).Nodup →
    nfdChildren fuel s st cmd rows =
      (.ok (flattenF F),
       { st with nested := removeNestedByUIDs st.nested org (flattenF F) })
  | .fnil => by
    intro fuel s st org cmd rows hfuel hrows hrorg huser hrep hok hnd
    have hrnil : rows = [] := by
      cases rows with
      | nil => rfl
      | cons r rs => simp [rootsF] at hrows
    subst hrnil
    cases fuel <;>
      simp [nfdChildren, flattenF, removeNested_nil]
  | .fcons t ts => by
    intro fuel s st org cmd rows hfuel hrows hrorg huser hrep hok hnd
    cases rows with
    | nil => simp [rootsF] at hrows
    | cons r rs =>
      simp only [List.map_cons, rootsF, List.cons.injEq] at hrows
      obtain ⟨hr, hrs⟩ := hrows
      have hrep' := hrep
      unfold repF at hrep'
      simp only [Bool.and_eq_true] at hrep'
      obtain ⟨hrepT, hrepF⟩ := hrep'
      have horgr : r.orgID = org := hrorg r (List.mem_cons_self r rs)
      have hflat : flattenF (UForest.fcons t ts)
          = flattenT t ++ flattenF ts := rfl
      rw [hflat] at hok hnd
      have hnds := List.nodup_append.mp hnd
      have hdisj : ∀ x ∈ flattenF ts, ¬ x ∈ flattenT t :=
        fun x hx hxt => hnds.2.2 hxt hx
      have h1 := nfd_spec t fuel s st org
        { uid := r.uid, orgID := r.orgID
        , forceDeleteRules := cmd.forceDeleteRules
        , signedInUser := cmd.signedInUser }
        (le_trans (le_max_left _ _) hfuel)
        hr horgr huser hrepT
        (fun v hv => hok v (List.mem_append_left _ hv)) hnds.1
      have h2 := nfdc_spec ts fuel s
        { st with nested := removeNestedByUIDs st.nested org (flattenT t) }
        org cmd rs
        (le_trans (le_max_right _ _) hfuel)
        hrs (fun x hx => hrorg x (List.mem_cons_of_mem r hx)) huser
        (repF_remove st.nested org (flattenT t) ts hrepF hdisj)
        (fun v hv => nodeOK_remove s st org (flattenT t) v
          (hok v (List.mem_append_right _ hv)) (hdisj v hv))
        hnds.2.1
      simp only [nfdChildren, h1, h2, Prod.mk.injEq, State.mk.injEq]
      refine ⟨?_, trivial, ?_⟩
      · rw [hflat, flattenT_eq t, hr]
        simp
      · rw [removeNested_append, hflat]

end

theorem removeLegacy_nil (rows : List Dashboard) (org : Int) :
    removeLegacyByUIDs rows org [] = rows := by
  unfold removeLegacyByUIDs
  simp

theorem deleteDashboardRows_after_remove (L0 : List Dashboard) (org : Int)
    (done : List String) (u : String) (d : Dashboard)
    (uniq : legacyKeysUnique L0 org)
    (hd : lFindFolderRow L0 org u = some d) :
    deleteDashboardRows (removeLegacyByUIDs L0 org done) org d.id
      = removeLegacyByUIDs L0 org (done ++ [u]) := by
  unfold deleteDashboardRows removeLegacyByUIDs
  rw [List.filter_filter]
  apply List.filter_congr
  intro x hx
  have hdp := lFindFolderRow_spec hd
  have hdmem : d ∈ L0 := List.mem_of_find?_eq_some hd
  by_cases ho : x.orgID = org
  · have hiff : x.id = d.id ↔ x.uid = u := by
      constructor
      · intro hid
        have hxd : x = d := uniq x hx d hdmem ho hdp.1 (Or.inr hid)
        rw [hxd]
        exact hdp.2.1
      · intro huid
        have hxd : x = d := uniq x hx d hdmem ho hdp.1
          (Or.inl (huid.trans hdp.2.1.symm))
        rw [hxd]
    by_cases hu2 : x.uid = u
    · have hid : x.id = d.id := hiff.mpr hu2
      by_cases hdone : x.uid ∈ done <;>
        simp [ho, hid, hu2, hdone, List.mem_append]
    · have hid : ¬ x.id = d.id := fun hh => hu2 (hiff.mp hh)
      by_cases hdone : x.uid ∈ done <;>
        simp [ho, hid, hu2, hdone, List.mem_append]
  · have ho' : (x.orgID == org) = false := by
      simp [ho]
    simp [ho']

theorem legacyDeleteLoop_spec (s : Svc) (cmd : DeleteFolderCommand)
    (L0 : List Dashboard) (org : Int) (allUids : List String)
    (hreg : s.registry = []) (horg : cmd.orgID = org)
    (uniq : legacyKeysUnique L0 org) :
    ∀ (uids done : List String) (st : State),
      st.legacy = removeLegacyByUIDs L0 org done →
      (∀ u ∈ uids, u ∈ allUids ∧ (lFindFolderRow L0 org u).isSome = true) →
      legacyDeleteLoop s cmd (lGetFoldersLookup L0 org allUids) uids st
        = (.ok (), { st with legacy := removeLegacyByUIDs L0 org (done ++ uids) }) := by
  intro uids
  induction uids with
  | nil =>
    intro done st hst hall
    rw [show legacyDeleteLoop s cmd (lGetFoldersLookup L0 org allUids) [] st
      = (.ok (), st) from rfl]
    rw [List.append_nil, ← hst]
  | cons u rest ih =>
    intro done st hst hall
    obtain ⟨hmemAll, hsome⟩ := hall u (List.mem_cons_self u rest)
    obtain ⟨d, hd⟩ := Option.isSome_iff_exists.mp hsome
    have hlook : lGetFoldersLookup L0 org allUids u = some d := by
      unfold lGetFoldersLookup
      rw [if_pos (List.elem_eq_true_of_mem hmemAll)]
      exact hd
    have hrb : (if cmd.forceDeleteRules then
        deleteChildrenInFolder s.registry d.orgID d.uid else .ok ())
        = (.ok () : Except Err Unit) := by
      rw [hreg]
      cases cmd.forceDeleteRules <;> rfl
    have hstep : deleteDashboardRows st.legacy cmd.orgID d.id
        = removeLegacyByUIDs L0 org (done ++ [u]) := by
      rw [hst, horg]
      exact deleteDashboardRows_after_remove L0 org done u d uniq hd
    simp only [legacyDeleteLoop, hlook, hrb]
    rw [hstep]
    rw [ih (done ++ [u])
      { st with legacy := removeLegacyByUIDs L0 org (done ++ [u]) } rfl
      (fun v hv => hall v (List.mem_cons_of_mem u hv))]
    rw [List.append_assoc]
    rfl

/-- C3: a successful Delete of a folder removes it and every descendant
from both the legacy and the nested store; afterwards a Get on any of
those UIDs returns NotFound, and a second Delete of the same UID returns
NotFound, never success.  The subtree is described by a shape `T` that
matches the nested store exactly. -/
theorem C3_delete_cascade (s : Svc) (st : State) (org : Int) (T : UTree)
    (cmd : DeleteFolderCommand)
    (hreg : s.registry = [])
    (huser : cmd.signedInUser.isSome = true)
    (huid : cmd.uid = T.rootUID)
    (horg : cmd.orgID = org) (horgpos : 1 ≤ org)
    (hdel : s.perms.canDelete cmd.uid = true)
    (hrep : repT st.nested org T = true)
    (hok : ∀ u ∈ flattenT T, nodeOK s st org u = true)
    (hnd : (flattenT T).Nodup)
    (uniq : legacyKeysUnique st.legacy org) :
    Service.Delete s st cmd =
      (.ok (), { legacy := removeLegacyByUIDs st.legacy org (flattenT T)
               , nested := removeNestedByUIDs st.nested org (flattenT T) })
    ∧ (∀ u ∈ flattenT T,
        Service.Get s
          { legacy := removeLegacyByUIDs st.legacy org (flattenT T)
          , nested := removeNestedByUIDs st.nested org (flattenT T) }
          { uid := some u, id := none, title := none, orgID := org
          , signedInUser := cmd.signedInUser } = .error .folderNotFound)
    ∧ Service.Delete s
        { legacy := removeLegacyByUIDs st.legacy org (flattenT T)
        , nested := removeNestedByUIDs st.nested org (flattenT T) } cmd
      = (.error .folderNotFound,
         { legacy := removeLegacyByUIDs st.legacy org (flattenT T)
         , nested := removeNestedByUIDs st.nested org (flattenT T) }) := by
  subst horg
  have husn := isNone_false_of_isSome huser
  have hrootmem : cmd.uid ∈ flattenT T := by
    rw [huid]
    exact rootUID_mem_flattenT T
  obtain ⟨hne, _, _⟩ := nodeOK_unpack s st cmd.orgID cmd.uid (hok cmd.uid hrootmem)
  have hlist : cmd.uid :: flattenF T.childrenF = flattenT T := by
    rw [huid, ← flattenT_eq]
  have horneg : ¬ cmd.orgID < 1 := by omega
  have hget_nf : ∀ u ∈ flattenT T,
      Service.Get s
        { legacy := removeLegacyByUIDs st.legacy cmd.orgID (flattenT T)
        , nested := removeNestedByUIDs st.nested cmd.orgID (flattenT T) }
        { uid := some u, id := none, title := none, orgID := cmd.orgID
        , signedInUser := cmd.signedInUser } = .error .folderNotFound := by
    intro u hu
    obtain ⟨hune, _, _⟩ := nodeOK_unpack s st cmd.orgID u (hok u hu)
    obtain ⟨u0, hu0⟩ := Option.isSome_iff_exists.mp huser
    have hfind : lFindFolderRow
        (removeLegacyByUIDs st.legacy cmd.orgID (flattenT T)) cmd.orgID u
        = none :=
      lFindFolderRow_remove_none st.legacy cmd.orgID (flattenT T) u hu
    simp [Service.Get, hu0, selectDashFolder, hune, getFolderByUID, hfind]
  refine ⟨?_, hget_nf, ?_⟩
  · have hfuel : heightT T ≤ st.nested.length + 1 := by
      have hh1 := heightT_le_flattenT T
      have hh2 := flatten_length_le s st cmd.orgID T hok hnd
      omega
    have h1 := nfd_spec T (st.nested.length + 1) s st cmd.orgID cmd hfuel huid
      rfl huser hrep hok hnd
    have hloop := legacyDeleteLoop_spec s cmd st.legacy cmd.orgID
      (cmd.uid :: flattenF T.childrenF) hreg rfl uniq
      (cmd.uid :: flattenF T.childrenF) []
      { st with nested := removeNestedByUIDs st.nested cmd.orgID (flattenT T) }
      (by rw [removeLegacy_nil])
      (by
        intro v hv
        have hv' : v ∈ flattenT T := by
          rw [← hlist]
          exact hv
        obtain ⟨_, _, dv, hdv, _, _⟩ := nodeOK_unpack s st cmd.orgID v (hok v hv')
        exact ⟨hv, by rw [hdv]; rfl⟩)
    simp only [List.nil_append, hlist] at hloop
    simp only [Service.Delete, husn, Bool.false_eq_true, if_false,
      if_neg hne, if_neg horneg, hdel, Bool.not_true, h1, hlist, hloop]
  · simp only [Service.Delete, husn, Bool.false_eq_true, if_false,
      if_neg hne, if_neg horneg, hdel, Bool.not_true, nestedFolderDelete,
      hget_nf cmd.uid hrootmem]

/-- Witness for C3: deleting a (with descendant b) in the two-folder
state empties both stores of a and b, any Get on a or b afterwards is
NotFound, and a second Delete of a is NotFound. -/
theorem C3_delete_cascade_witness :
    Service.Delete svcN st0 c3cmd =
      (.ok (), { legacy := removeLegacyByUIDs st0.legacy 1 (flattenT c3T)
               , nested := removeNestedByUIDs st0.nested 1 (flattenT c3T) })
    ∧ (∀ u ∈ flattenT c3T,
        Service.Get svcN
          { legacy := removeLegacyByUIDs st0.legacy 1 (flattenT c3T)
          , nested := removeNestedByUIDs st0.nested 1 (flattenT c3T) }
          { uid := some u, id := none, title := none, orgID := 1
          , signedInUser := c3cmd.signedInUser } = .error .folderNotFound)
    ∧ Service.Delete svcN
        { legacy := removeLegacyByUIDs st0.legacy 1 (flattenT c3T)
        , nested := removeNestedByUIDs st0.nested 1 (flattenT c3T) } c3cmd
      = (.error .folderNotFound,
         { legacy := removeLegacyByUIDs st0.legacy 1 (flattenT c3T)
         , nested := removeNestedByUIDs st0.nested 1 (flattenT c3T) }) :=
  C3_delete_cascade svcN st0 1 c3T c3cmd rfl rfl rfl rfl (by decide) rfl
    (by decide) (by decide) (by decide)
    (by unfold legacyKeysUnique; decide)

end FolderSvc
